import Mathlib

/-!
# Verification of the haruneko-api download core

Shallow embedding of the repository's download orchestration core:
the Puppeteer page pool (`src/engine/platform/FetchProviderPuppeteer.ts`)
and the download lifecycle controller
(`src/api/services/download.service.ts`), together with proofs settling
the specification's claims about them.

Conventions: JS `Map<string, DownloadStatus>` is an association list,
JS strings are Lean `String`, timestamps (`new Date().toISOString()`)
are an abstract `Nat` clock value passed in, and the `Math.floor`
progress expressions are evaluated in a model of IEEE-754 binary64
arithmetic (`flCore`, `chapterStartProgress`, `pageProgress`), whose
rounding is observable in the recorded values — `0.7 * 90` floors
to 62, not 63.
-/

namespace Haruneko

/-! ## Browser page pool (FetchProviderPuppeteer.getPage / releasePage)

State of `FetchProviderPuppeteer`: `browserPool : Page[]` holds the idle
pages; pages handed to callers are checked out.  We track only the
counts, which is all the capacity claim is about. -/

/-- Pool state: `idle` is `browserPool.length`; `checkedOut` counts pages
returned by `getPage` and not yet passed to `releasePage`. -/
structure PoolState where
  idle : Nat
  checkedOut : Nat
deriving DecidableEq, Repr

/-- Total live pages outstanding (in-use plus idle in the pool). -/
def PoolState.livePages (s : PoolState) : Nat :=
  s.idle + s.checkedOut

/-- One `getPage()` call (lines 89-113 of FetchProviderPuppeteer.ts):
pop an idle page if the pool is non-empty; otherwise the code tests
`this.browserPool.length < this.maxBrowsers` — the *idle* pool length,
which is `0` right after the failed pop — and creates a brand-new page
when that test passes; only when it fails does it wait and retry.
`none` models the wait-and-retry round (no page acquired). -/
def getPage (maxBrowsers : Nat) (s : PoolState) : Option PoolState :=
  if s.idle > 0 then
    some { s with idle := s.idle - 1, checkedOut := s.checkedOut + 1 }
  else if s.idle < maxBrowsers then
    some { s with checkedOut := s.checkedOut + 1 }
  else
    none

/-- One `releasePage(page)` call (lines 118-135): clear volatile state,
then push onto the pool when `browserPool.length < maxBrowsers`, else
close the page.  A call with no page checked out is a protocol violation
and leaves the state unchanged. -/
def releasePage (maxBrowsers : Nat) (s : PoolState) : PoolState :=
  if s.checkedOut = 0 then s
  else if s.idle < maxBrowsers then
    { s with idle := s.idle + 1, checkedOut := s.checkedOut - 1 }
  else
    { s with checkedOut := s.checkedOut - 1 }

/-- A step of the acquire/release protocol. -/
inductive PoolOp where
  | acquire
  | release
deriving DecidableEq, Repr

/-- Run a sequence of acquisitions and releases from a pool state.
An acquire that would have to wait (`getPage` returns `none`) leaves the
state unchanged for that round. -/
def runPool (maxBrowsers : Nat) : List PoolOp → PoolState → PoolState
  | [], s => s
  | PoolOp.acquire :: ops, s =>
      runPool maxBrowsers ops ((getPage maxBrowsers s).getD s)
  | PoolOp.release :: ops, s =>
      runPool maxBrowsers ops (releasePage maxBrowsers s)

/-- The empty initial pool. -/
def initPool : PoolState := { idle := 0, checkedOut := 0 }

/-! ## Header sanitization (FetchProviderPuppeteer.sanitizeHeaders) -/

/-- Test for `[\r\n]` — a carriage return or newline character. -/
def isCRLF (c : Char) : Bool := c == '\r' || c == '\n'

/-- Scanner for `value.replace(/[\r\n]+/g, ', ')`: `inRun` records
whether the previous character belonged to a CR/LF run (so the run's
replacement `', '` was already emitted). -/
def foldNewlinesGo (inRun : Bool) : List Char → List Char
  | [] => []
  | c :: rest =>
    if isCRLF c then
      if inRun then foldNewlinesGo true rest
      else ',' :: ' ' :: foldNewlinesGo true rest
    else
      c :: foldNewlinesGo false rest

/-- Model of `value.replace(/[\r\n]+/g, ', ')` (line 44): every maximal run of
carriage-return/newline characters becomes a comma-space. -/
def foldNewlines (cs : List Char) : List Char :=
  foldNewlinesGo false cs

/-- Test for `/[\x00-\x1F\x7F]/` — an ASCII control character. -/
def isCtl (c : Char) : Bool := c.toNat ≤ 0x1F || c.toNat == 0x7F

/-- Whether a string still contains a control character. -/
def hasCtl (s : String) : Bool := s.data.any isCtl

/-- Model of `sanitizeHeaders` (lines 38-52): for each header entry, fold newline
runs into `', '`; keep the entry only when the folded value has no
control character left.  Header maps are modelled as entry lists. -/
def sanitizeHeaders (entries : List (String × String)) : List (String × String) :=
  entries.filterMap fun kv =>
    let sanitizedValue := String.mk (foldNewlines kv.2.data)
    if hasCtl sanitizedValue then none else some (kv.1, sanitizedValue)

/-! ## Cloudflare challenge wait loop (FetchProviderPuppeteer.waitForCloudflare)

The loop's interaction with the page is an oracle: the k-th
`page.evaluate` of the main challenge check returns `evals k`, and the
r-th re-check after an execution-context-destroyed error returns
`rechecks r`.  Time advances only in the explicit sleeps (500 ms at the
end of each round, 1000 ms after a context-destroyed error), which is
how the source accounts for it via `Date.now() - startTime`. -/

/-- Result of the main `page.evaluate` challenge probe (lines 277-289):
it reports whether challenge markers are present, or throws. -/
inductive EvalRes where
  | ok (hasChallenge : Bool)
  | ctxDestroyed
  | fail (msg : String)
deriving DecidableEq, Repr

/-- Result of the one-shot re-check after a navigation (lines 308-313). -/
inductive RecheckRes where
  | ok (stillChallenging : Bool)
  | err
deriving DecidableEq, Repr

/-- How `waitForCloudflare` exits: challenge cleared (line 299), cleared
after a navigation race (line 316), deadline elapsed with only a warning
logged (line 329, a normal return), or a rethrown evaluate error
(line 322).  `outOfFuel` is an artifact of the fuelled model and is
unreachable for the fuel `waitForCloudflare` supplies. -/
inductive CfOutcome where
  | cleared
  | clearedAfterNav
  | timedOutWarning
  | raised (msg : String)
  | outOfFuel
deriving DecidableEq, Repr

/-- The `while (Date.now() - startTime < maxWaitTime)` loop
(lines 275-327).  `elapsed` is `Date.now() - startTime`; `k` and `r`
count evaluate and re-check calls.  One round: probe; if no challenge,
return; on a context-destroyed error, sleep 1000 ms, re-check once and
return if the challenge text is gone; otherwise sleep 500 ms and loop. -/
def waitForCloudflareLoop (maxWaitTime : Nat) (evals : Nat → EvalRes)
    (rechecks : Nat → RecheckRes) :
    Nat → Nat → Nat → Nat → CfOutcome
  | 0, _, _, _ => .outOfFuel
  | fuel + 1, elapsed, k, r =>
    if elapsed < maxWaitTime then
      match evals k with
      | .ok true =>
          waitForCloudflareLoop maxWaitTime evals rechecks fuel (elapsed + 500) (k + 1) r
      | .ok false => .cleared
      | .fail msg => .raised msg
      | .ctxDestroyed =>
        match rechecks r with
        | .ok false => .clearedAfterNav
        | _ =>
            waitForCloudflareLoop maxWaitTime evals rechecks fuel
              (elapsed + 1000 + 500) (k + 1) (r + 1)
    else
      .timedOutWarning

/-- Model of `waitForCloudflare(page, maxWaitTime = 45000)` (lines 271-330).
Each loop round advances `elapsed` by at least 500, so `maxWaitTime + 1`
rounds of fuel always suffice (see `waitForCloudflareLoop_fuel_enough`). -/
def waitForCloudflare (evals : Nat → EvalRes) (rechecks : Nat → RecheckRes)
    (maxWaitTime : Nat := 45000) : CfOutcome :=
  waitForCloudflareLoop maxWaitTime evals rechecks (maxWaitTime + 1) 0 0 0

/-- The always-challenging page probe. -/
def constChallenge : Nat → EvalRes := fun _ => EvalRes.ok true

/-- A re-check oracle that always still sees the challenge. -/
def constStillChallenging : Nat → RecheckRes := fun _ => RecheckRes.ok true

/-! ## Download service (api/services/download.service.ts)

JS runtime conventions used below: `x || y` and `x ? a : b` on strings
treat the empty string as falsy; calling the `async` method
`processDownload` executes its body synchronously up to the first
`await`; `Object.assign` mutates its first argument in place, so the
record stored in the `downloads` map and the record `createDownload`
returns are one object. -/

/-- Download lifecycle states (the `status` field's string values). -/
inductive DLState where
  | queued
  | downloading
  | processing
  | completed
  | failed
deriving DecidableEq, Repr

/-- Model of `DownloadStatus` (api/types/responses.ts is not in the
snapshot; the fields are the ones download.service.ts creates at
lines 55-66 and assigns in its `updateDownloadStatus` calls, matching
the spec's §3 description).  `progress` is the integer value of the
`Math.floor` expressions; timestamps are abstract clock values. -/
structure DownloadStatus where
  id : String
  sourceId : String
  mangaId : String
  chapterIds : List String
  status : DLState
  progress : Int
  format : String
  downloadPath : Option String
  createdAt : Nat
  updatedAt : Nat
  error : Option String := none
  mangaTitle : Option String := none
  currentChapter : Option String := none
  completedAt : Option Nat := none
  fileUrl : Option String := none
deriving DecidableEq, Repr

/-- Model of `Partial<DownloadStatus>`: a field set to `some v` is a key
present in the update object (with value `v`); `none` is an absent key,
which `Object.assign` leaves untouched. -/
structure StatusUpdate where
  id : Option String := none
  sourceId : Option String := none
  mangaId : Option String := none
  chapterIds : Option (List String) := none
  status : Option DLState := none
  progress : Option Int := none
  format : Option String := none
  downloadPath : Option (Option String) := none
  createdAt : Option Nat := none
  updatedAt : Option Nat := none
  error : Option (Option String) := none
  mangaTitle : Option (Option String) := none
  currentChapter : Option (Option String) := none
  completedAt : Option (Option Nat) := none
  fileUrl : Option (Option String) := none
deriving DecidableEq, Repr

/-- Model of `Object.assign(download, updates, { updatedAt: new Date().toISOString() })`
(lines 389-391): every key present in `updates` overwrites the record's
field, every absent key leaves it, and `updatedAt` is always refreshed
(the third argument wins over any `updatedAt` in `updates`). -/
def applyUpdate (now : Nat) (d : DownloadStatus) (u : StatusUpdate) : DownloadStatus where
  id := u.id.getD d.id
  sourceId := u.sourceId.getD d.sourceId
  mangaId := u.mangaId.getD d.mangaId
  chapterIds := u.chapterIds.getD d.chapterIds
  status := u.status.getD d.status
  progress := u.progress.getD d.progress
  format := u.format.getD d.format
  downloadPath := u.downloadPath.getD d.downloadPath
  createdAt := u.createdAt.getD d.createdAt
  updatedAt := now
  error := u.error.getD d.error
  mangaTitle := u.mangaTitle.getD d.mangaTitle
  currentChapter := u.currentChapter.getD d.currentChapter
  completedAt := u.completedAt.getD d.completedAt
  fileUrl := u.fileUrl.getD d.fileUrl

/-- The service's `downloads` table, `Map<string, DownloadStatus>`. -/
abbrev DownloadMap := List (String × DownloadStatus)

/-- Model of `Map.get`. -/
def mlookup : DownloadMap → String → Option DownloadStatus
  | [], _ => none
  | (k, v) :: rest, key => if k = key then some v else mlookup rest key

/-- Model of `Map.set`: replace the key's entry when present, else append. -/
def mset : DownloadMap → String → DownloadStatus → DownloadMap
  | [], key, v => [(key, v)]
  | (k, w) :: rest, key, v =>
      if k = key then (key, v) :: rest else (k, w) :: mset rest key v

/-- Model of `Map.delete`. -/
def mdelete : DownloadMap → String → DownloadMap
  | [], _ => []
  | (k, w) :: rest, key =>
      if k = key then rest else (k, w) :: mdelete rest key

/-- Model of `updateDownloadStatus(downloadId, updates)` (lines 383-394):
a lookup miss does nothing (no record created, no error thrown); a hit
applies the partial update and refreshes `updatedAt`. -/
def updateDownloadStatus (now : Nat) (m : DownloadMap) (downloadId : String)
    (u : StatusUpdate) : DownloadMap :=
  match mlookup m downloadId with
  | none => m
  | some d => mset m downloadId (applyUpdate now d u)

/-- Update passed at lines 73-76 (the detached promise's catch). -/
def updFailed (msg : String) : StatusUpdate :=
  { status := some DLState.failed, error := some (some msg) }

/-- Update passed at line 87. -/
def updDownloading : StatusUpdate :=
  { status := some DLState.downloading }

/-- Update passed at lines 122-126. -/
def updProcessing (mangaTitle : String) : StatusUpdate :=
  { status := some DLState.processing, progress := some 0,
    mangaTitle := some (some mangaTitle) }

/-- Update passed at lines 131-136. -/
def updCompleted (completedAt : Nat) (fileUrl : String) : StatusUpdate :=
  { status := some DLState.completed, progress := some 100,
    completedAt := some (some completedAt), fileUrl := some (some fileUrl) }

/-- Update passed at lines 192-195 (start of a chapter). -/
def updChapterStart (title : String) (p : Int) : StatusUpdate :=
  { currentChapter := some (some title), progress := some p }

/-- Update passed at lines 224-226 (after each page). -/
def updProgress (p : Int) : StatusUpdate :=
  { progress := some p }

/-- The updates download.service.ts actually passes to
`updateDownloadStatus` (lines 73, 87, 122, 131, 192 and 224). -/
def IsCallSiteUpdate (u : StatusUpdate) : Prop :=
  (∃ msg, u = updFailed msg) ∨
  u = updDownloading ∨
  (∃ t, u = updProcessing t) ∨
  (∃ ca f, u = updCompleted ca f) ∨
  (∃ ti p, u = updChapterStart ti p) ∨
  (∃ p, u = updProgress p)

/-! ### Chapter-number extraction (extractChapterNumber, lines 158-178) -/

/-- Case-insensitive character comparison (the regexes' `i` flag). -/
def ciEq (a b : Char) : Bool := a.toLower == b.toLower

/-- Match of `\d+(?:\.\d+)?` at the head of the character list: the
greedy numeral matched, or `none`.  (If a `.` follows the digits but no
digit follows the `.`, the optional group fails and only the leading
digits match.) -/
def numAt (cs : List Char) : Option (List Char) :=
  let ds := cs.takeWhile Char.isDigit
  let rest := cs.dropWhile Char.isDigit
  if ds.isEmpty then none
  else
    match rest with
    | '.' :: rest2 =>
      let fs := rest2.takeWhile Char.isDigit
      if fs.isEmpty then some ds else some (ds ++ '.' :: fs)
    | _ => some ds

/-- Match of `/Ch\.?(\d+(?:\.\d+)?)/i` at one start position: `C`/`c`
then `H`/`h`, then either `.` followed by a numeral or a numeral
directly.  (When a `.` follows `Ch` without digits after it, the
backtracked empty `\.?` still requires a digit where the `.` stands, so
the position fails either way.) -/
def matchChAt : List Char → Option (List Char)
  | [] => none
  | c :: rest =>
    if ciEq c 'c' then
      match rest with
      | h :: rest2 =>
        if ciEq h 'h' then
          match rest2 with
          | '.' :: rest3 => numAt rest3
          | _ => numAt rest2
        else none
      | [] => none
    else none

/-- Leftmost match of `/Ch\.?(\d+(?:\.\d+)?)/i` (pattern 1, line 161):
try each start position left to right. -/
def matchCh : List Char → Option (List Char)
  | [] => none
  | c :: rest => (matchChAt (c :: rest)).orElse fun _ => matchCh rest

/-- Match a literal word case-insensitively at the head; the rest on
success. -/
def stripCIWord : List Char → List Char → Option (List Char)
  | [], cs => some cs
  | _ :: _, [] => none
  | w :: ws, c :: cs => if ciEq w c then stripCIWord ws cs else none

/-- Match of `/Chapter\s*(\d+(?:\.\d+)?)/i` at one start position:
the word `Chapter`, any run of whitespace, then a numeral.  (`\s` is
modelled by `Char.isWhitespace`.) -/
def matchChapterWordAt (cs : List Char) : Option (List Char) :=
  match stripCIWord "chapter".data cs with
  | none => none
  | some rest => numAt (rest.dropWhile Char.isWhitespace)

/-- Leftmost match of `/Chapter\s*(\d+(?:\.\d+)?)/i` (pattern 2, line 162). -/
def matchChapterWord : List Char → Option (List Char)
  | [] => none
  | c :: rest => (matchChapterWordAt (c :: rest)).orElse fun _ => matchChapterWord rest

/-- Leftmost match of `/(\d+(?:\.\d+)?)/` (pattern 4, line 164): the
first numeral anywhere. -/
def findNum : List Char → Option (List Char)
  | [] => none
  | c :: rest => (numAt (c :: rest)).orElse fun _ => findNum rest

/-- Drop leading `'0'` digits, keeping at least one digit. -/
def stripLeadingZeros (ds : List Char) : List Char :=
  match ds.dropWhile (· == '0') with
  | [] => ['0']
  | r => r

/-- Drop trailing `'0'` digits. -/
def stripTrailingZeros (fs : List Char) : List Char :=
  (fs.reverse.dropWhile (· == '0')).reverse

/-- Model of `parseFloat(match[1]).toString()` (lines 171-172) on a
matched numeral of shape `\d+(\.\d+)?`: JS renders the shortest
round-trip decimal, which for these decimal numerals is the numeral
with leading integer zeros and trailing fraction zeros removed, the dot
dropped when the fraction vanishes (IEEE-754 double rounding of longer
than 17-digit numerals is abstracted away). -/
def jsNumToString (num : List Char) : String :=
  let intPart := num.takeWhile Char.isDigit
  let rest := num.dropWhile Char.isDigit
  let fracPart := match rest with
    | '.' :: fs => fs
    | _ => []
  let i := stripLeadingZeros intPart
  let f := stripTrailingZeros fracPart
  if f.isEmpty then String.mk i else String.mk (i ++ '.' :: f)

/-- Modelled from the spec: `SanitizeFileName` (engine/StorageController.ts)
is imported by download.service.ts but its source is not part of this
snapshot; the spec (§4.5) requires only a filesystem-safe name derived
from the title.  Modelled as replacing filesystem-reserved characters
with underscores. -/
def SanitizeFileName (s : String) : String :=
  String.mk (s.data.map fun c =>
    if c ∈ ['/', '\\', ':', '*', '?', '"', '<', '>', '|'] then '_' else c)

/-- Model of `extractChapterNumber(chapterTitle)` (lines 158-178): try
the four patterns in priority order — `Ch.<n>`, `Chapter <n>`, a leading
number, any number — normalize the first match through
`parseFloat`/`toString`, and fall back to the sanitized full title when
no pattern matches. -/
def extractChapterNumber (chapterTitle : String) : String :=
  match matchCh chapterTitle.data with
  | some n => jsNumToString n
  | none =>
  match matchChapterWord chapterTitle.data with
  | some n => jsNumToString n
  | none =>
  match numAt chapterTitle.data with
  | some n => jsNumToString n
  | none =>
  match findNum chapterTitle.data with
  | some n => jsNumToString n
  | none => SanitizeFileName chapterTitle

/-! ### Download processing -/

/-- Truthiness of an optional JS string (`undefined` and `''` are
falsy). -/
def jsStrTruthy : Option String → Bool
  | none => false
  | some s => !(s == "")

/-- Model of `request.format || 'cbz'` (lines 62 and 185). -/
def formatOrDefault (format : Option String) : String :=
  match format with
  | none => "cbz"
  | some f => if f == "" then "cbz" else f

/-- Model of `path.join(a, b)` for the plain relative segments this
service builds (no normalization is needed for them). -/
def pathJoin (a b : String) : String := a ++ "/" ++ b

/-- The body of `DownloadRequest` as the service reads it (the
`options` field is never consulted). -/
structure DownloadRequest where
  sourceId : String
  mangaId : String
  chapterIds : List String
  format : Option String := none
  downloadPath : Option String := none
deriving DecidableEq, Repr

/-- A chapter of the plugin registry: identifier, title and pages, each
page's fetch either succeeding (`none`) or failing with an error
message (`some msg`). -/
structure ChapterData where
  Identifier : String
  Title : String
  pages : List (Option String)
deriving DecidableEq, Repr

/-- A manga of the plugin registry. -/
structure MangaData where
  Identifier : String
  Title : String
  chapters : List ChapterData
deriving DecidableEq, Repr

/-- A website plugin of the registry. -/
structure PluginData where
  Identifier : String
  mangas : List MangaData
deriving DecidableEq, Repr

/-- The plugin controller's registry (`WebsitePlugins`). -/
structure EngineData where
  WebsitePlugins : List PluginData
deriving DecidableEq, Repr

/-! #### Binary64 arithmetic

The progress expressions at lines 194 and 223-225 are evaluated by the
JS engine over IEEE-754 binary64 doubles, whose rounding is observable:
`Math.floor((0 + 7/10) / 1 * 90)` records 62 where exact rational
arithmetic gives 63.  A double is modelled as an exact dyadic rational
`m * 2^e`; every arithmetic step rounds the exact result to a 53-bit
significand, to nearest with ties to even — the binary64 semantics for
the normal range, which this service's values never leave (operands are
positive integers below 2^53, quotients stay far from the subnormal
threshold, and the division guards of the loops keep denominators
positive). -/

/-- Fuelled base-2 logarithm: `natLog2Fuel fuel n = ⌊log2 n⌋` whenever
`n ≤ fuel` (structural recursion so that the kernel can evaluate it). -/
def natLog2Fuel : Nat → Nat → Nat
  | 0, _ => 0
  | fuel + 1, n => if n ≤ 1 then 0 else natLog2Fuel fuel (n / 2) + 1

/-- Floor base-2 logarithm of a positive natural. -/
def natLog2 (n : Nat) : Nat := natLog2Fuel n n

/-- Integer rounding of the rational `x / y` to nearest, ties to even. -/
def rneDiv (x y : Nat) : Nat :=
  let q := x / y
  let r := x % y
  if 2 * r < y then q
  else if y < 2 * r then q + 1
  else if q % 2 = 0 then q else q + 1

/-- Model of a non-negative binary64 double as the exact dyadic rational
`m * 2^e` it denotes. -/
structure Dbl where
  m : Nat
  e : Int
deriving DecidableEq, Repr

/-- Model of IEEE-754 binary64 rounding (to nearest, ties to even) of
the non-negative rational `a / b`: scale into `[2^52, 2^53)` at the
exponent `E = ⌊log2 (a/b)⌋ - 52` and round the scaled significand.
(`b = 0` cannot be reached through the guarded progress expressions and
is mapped to zero.) -/
def flCore (a b : Nat) : Dbl :=
  if a = 0 then ⟨0, 0⟩
  else if b = 0 then ⟨0, 0⟩
  else
    let k := 55 + natLog2 b
    let d := natLog2 (a * 2 ^ k / b)
    let E : Int := (d : Int) - k - 52
    if 0 ≤ E then ⟨rneDiv a (b * 2 ^ E.toNat), E⟩
    else ⟨rneDiv (a * 2 ^ (-E).toNat) b, E⟩

/-- The exact rational value of a modelled double. -/
def valQ (x : Dbl) : ℚ := (x.m : ℚ) * 2 ^ x.e

/-- A natural number as a double (exact below `2^53`). -/
def ofNatD (n : Nat) : Dbl := flCore n 1

/-- Binary64 division: round the exact quotient (powers of two scale
exactly). -/
def dDiv (x y : Dbl) : Dbl :=
  let r := flCore x.m y.m
  ⟨r.m, r.e + x.e - y.e⟩

/-- Binary64 multiplication: round the exact product. -/
def dMul (x y : Dbl) : Dbl :=
  let r := flCore (x.m * y.m) 1
  ⟨r.m, r.e + x.e + y.e⟩

/-- Binary64 addition: align exponents, add exactly, round. -/
def dAdd (x y : Dbl) : Dbl :=
  let emin := min x.e y.e
  let mx := x.m * 2 ^ (x.e - emin).toNat
  let my := y.m * 2 ^ (y.e - emin).toNat
  let r := flCore (mx + my) 1
  ⟨r.m, r.e + emin⟩

/-- Model of `Math.floor` on a non-negative double (exact). -/
def dFloor (x : Dbl) : Int :=
  if 0 ≤ x.e then ((x.m * 2 ^ x.e.toNat : Nat) : Int)
  else ((x.m / 2 ^ (-x.e).toNat : Nat) : Int)

/-- The binary64 unit roundoff `2^-52` (each rounding step multiplies
the exact value by a factor within `[1 - eps52, 1 + eps52]`). -/
def eps52 : ℚ := 1 / 2 ^ 52

/-- Model of `Math.floor((chapterIndex / chapters.length) * 90)`
(line 194), evaluated in binary64: both operands are exact doubles, the
division and the multiplication round. -/
def chapterStartProgress (chapterIndex totalChapters : Nat) : Int :=
  dFloor (dMul (dDiv (ofNatD chapterIndex) (ofNatD totalChapters)) (ofNatD 90))

/-- Model of `Math.floor(((chapterIndex + pageNum / pageCount) / totalChapters) * 90)`
(lines 223-225; the code records it with `pageNum = pageIndex + 1` after
each fetched page), evaluated in binary64: the inner division, the
addition, the outer division and the multiplication each round. -/
def pageProgress (chapterIndex pageNum pageCount totalChapters : Nat) : Int :=
  dFloor (dMul (dDiv (dAdd (ofNatD chapterIndex)
    (dDiv (ofNatD pageNum) (ofNatD pageCount))) (ofNatD totalChapters)) (ofNatD 90))

/-- Instrumentation events of `downloadAndExport`: a page fetch carries
the loop's chapter index, page index, page count and chapter count plus
the `progress` field of the download's record at the moment the fetch
starts; an export carries the chapter index and output path. -/
inductive Ev where
  | fetch (chapterIndex pageIndex pageCount totalChapters : Nat)
      (progressAt : Option Int)
  | exported (chapterIndex : Nat) (outputPath : String)
deriving DecidableEq, Repr

/-- The export events of a trace. -/
def exportEvents : List Ev → List Ev
  | [] => []
  | Ev.exported i p :: rest => Ev.exported i p :: exportEvents rest
  | Ev.fetch _ _ _ _ _ :: rest => exportEvents rest

/-- Errors thrown during `processDownload`.  The messages of
`noValidChapters`, `pageFetchFailed`, `unsupportedFormat` and
`noChaptersDownloaded` are built in download.service.ts itself;
`sourceNotFound` / `mangaNotFound` come from the API error middleware,
which is not in the snapshot. -/
inductive PErr where
  | sourceNotFound (sourceId : String)
  | mangaNotFound (mangaId : String)
  | noValidChapters (msg : String)
  | pageFetchFailed (msg : String)
  | unsupportedFormat (format : String)
  | noChaptersDownloaded
deriving DecidableEq, Repr

/-- The message at line 119: it enumerates every identifier of the
resolved chapter catalog, then the requested identifiers. -/
def mkNoValidChaptersMsg (availableIds requestedIds : List String) : String :=
  "No valid chapters found to download. Available chapter IDs: " ++
    String.intercalate ", " availableIds ++ ". Requested: " ++
    String.intercalate ", " requestedIds

/-- Model of `error.message` as `createDownload`'s catch reads it.
Modelled from the spec for the two middleware-built errors (§7's
*SourceNotFound* / *MangaNotFound*, carrying the identifier); the other
messages are the service's own template strings (lines 119, 235, 261,
295). -/
def PErr.message : PErr → String
  | .sourceNotFound sourceId => "Source not found: " ++ sourceId
  | .mangaNotFound mangaId => "Manga not found: " ++ mangaId
  | .noValidChapters msg => msg
  | .pageFetchFailed msg => msg
  | .unsupportedFormat f => "Unsupported format: " ++ f
  | .noChaptersDownloaded => "No chapters were successfully downloaded"

/-- The page loop of `downloadAndExport` (lines 211-237): fetch each
page (the fetch event records the table's `progress` at that moment);
on success store the blob (abstracted) and record
`Math.floor(((chapterIndex + (pageIndex + 1) / pageCount) / totalChapters) * 90)`;
on failure throw `Failed to download page <n>: <message>`. -/
def pageLoop (now : Nat) (downloadId : String)
    (chapterIndex pageCount totalChapters : Nat) :
    List (Option String) → Nat → DownloadMap →
    DownloadMap × List Ev × Option PErr
  | [], _, st => (st, [], none)
  | page :: rest, pageIndex, st =>
    let ev := Ev.fetch chapterIndex pageIndex pageCount totalChapters
      ((mlookup st downloadId).map (·.progress))
    match page with
    | some errMsg =>
        (st, [ev], some (PErr.pageFetchFailed
          ("Failed to download page " ++ toString (pageIndex + 1) ++ ": " ++ errMsg)))
    | none =>
        let st1 := updateDownloadStatus now st downloadId
          (updProgress (pageProgress chapterIndex (pageIndex + 1) pageCount totalChapters))
        let r := pageLoop now downloadId chapterIndex pageCount totalChapters
          rest (pageIndex + 1) st1
        (r.1, ev :: r.2.1, r.2.2)

/-- The chapter loop of `downloadAndExport` (lines 188-296): at each
chapter record its title and `Math.floor((chapterIndex / chapters.length) * 90)`;
skip chapters with no pages (`continue`, line 204); run the page loop;
then build the output path from the extracted chapter number and the
sanitized manga title and export (`cbz` file or `images` directory —
any other format throws), returning that first exported chapter's path
(line 280).  An exhausted list throws (line 295).  The Exporter itself
is out of scope and assumed to succeed. -/
def chapterLoop (now : Nat) (downloadId : String) (format : String)
    (totalChapters : Nat) (mangaTitle downloadPath : String) :
    List ChapterData → Nat → DownloadMap →
    DownloadMap × List Ev × Except PErr String
  | [], _, st => (st, [], Except.error PErr.noChaptersDownloaded)
  | ch :: rest, chapterIndex, st =>
    let st1 := updateDownloadStatus now st downloadId
      (updChapterStart ch.Title (chapterStartProgress chapterIndex totalChapters))
    if ch.pages.isEmpty then
      chapterLoop now downloadId format totalChapters mangaTitle downloadPath
        rest (chapterIndex + 1) st1
    else
      let pr := pageLoop now downloadId chapterIndex ch.pages.length totalChapters
        ch.pages 0 st1
      match pr.2.2 with
      | some e => (pr.1, pr.2.1, Except.error e)
      | none =>
        let chapterNumber := extractChapterNumber ch.Title
        let sanitizedMangaTitle := SanitizeFileName mangaTitle
        if format == "cbz" then
          let outputPath := pathJoin (pathJoin downloadPath sanitizedMangaTitle)
            ("chapter_" ++ chapterNumber ++ ".cbz")
          (pr.1, pr.2.1 ++ [Ev.exported chapterIndex outputPath], Except.ok outputPath)
        else if format == "images" then
          let outputPath := pathJoin (pathJoin downloadPath sanitizedMangaTitle)
            ("chapter_" ++ chapterNumber)
          (pr.1, pr.2.1 ++ [Ev.exported chapterIndex outputPath], Except.ok outputPath)
        else
          (pr.1, pr.2.1, Except.error (PErr.unsupportedFormat format))

/-- Model of `downloadAndExport(downloadId, request, chapters, mangaTitle, downloadPath)`
(lines 183-296). -/
def downloadAndExport (now : Nat) (downloadId : String) (req : DownloadRequest)
    (chapters : List ChapterData) (mangaTitle downloadPath : String)
    (st : DownloadMap) : DownloadMap × List Ev × Except PErr String :=
  chapterLoop now downloadId (formatOrDefault req.format) chapters.length
    mangaTitle downloadPath chapters 0 st

/-- Model of `processDownload(downloadId, request, downloadPath)`
(lines 85-149): set *downloading*; resolve the plugin, the manga and
its chapter catalog; filter to the requested identifiers, throwing a
message that enumerates the available identifiers when none match
(lines 113-120); set *processing*; download and export; set
*completed* with the file URL (lines 131-136).  A thrown error
propagates to the detached promise's catch in `createDownload`. -/
def processDownload (now : Nat) (engine : EngineData) (downloadId : String)
    (req : DownloadRequest) (downloadPath : String) (st : DownloadMap) :
    DownloadMap × List Ev × Except PErr String :=
  let st0 := updateDownloadStatus now st downloadId updDownloading
  match engine.WebsitePlugins.find? (fun p => p.Identifier == req.sourceId) with
  | none => (st0, [], Except.error (PErr.sourceNotFound req.sourceId))
  | some plugin =>
  match plugin.mangas.find? (fun m => m.Identifier == req.mangaId) with
  | none => (st0, [], Except.error (PErr.mangaNotFound req.mangaId))
  | some manga =>
  let chapters := manga.chapters
  let chaptersToDownload :=
    chapters.filter (fun c => req.chapterIds.contains c.Identifier)
  if chaptersToDownload.isEmpty then
    (st0, [], Except.error (PErr.noValidChapters
      (mkNoValidChaptersMsg (chapters.map (·.Identifier)) req.chapterIds)))
  else
    let st1 := updateDownloadStatus now st0 downloadId (updProcessing manga.Title)
    let dae := downloadAndExport now downloadId req chaptersToDownload manga.Title
      downloadPath st1
    match dae.2.2 with
    | Except.ok outputPath =>
        (updateDownloadStatus now dae.1 downloadId
          (updCompleted now ("/api/v1/downloads/" ++ downloadId ++ "/file")),
         dae.2.1, Except.ok outputPath)
    | Except.error e => (dae.1, dae.2.1, Except.error e)

/-- Model of lines 39-41: `request.downloadPath ? path.resolve(request.downloadPath) : this.downloadDir`
(`path.resolve` is abstracted as the identity — the path's value is
opaque to the claims). -/
def resolvedDownloadPath (req : DownloadRequest) (downloadDir : String) : String :=
  if jsStrTruthy req.downloadPath then req.downloadPath.getD "" else downloadDir

/-- The record built at lines 55-66. -/
def initialStatus (now : Nat) (downloadId : String) (req : DownloadRequest)
    (resolvedPath : String) : DownloadStatus :=
  { id := downloadId
    sourceId := req.sourceId
    mangaId := req.mangaId
    chapterIds := req.chapterIds
    status := DLState.queued
    progress := 0
    format := formatOrDefault req.format
    downloadPath := if jsStrTruthy req.downloadPath then some resolvedPath else none
    createdAt := now
    updatedAt := now }

/-- The part of `createDownload` (lines 35-80) that has run when
`return status` (line 79) executes: the queued record is stored
(line 68); then the un-awaited `this.processDownload(...)` call
(line 71) runs synchronously up to its first `await`, which includes
the `status: 'downloading'` update at line 87; only then does
`createDownload` return.  The returned record is the very object the
table holds (`Object.assign` mutates it in place), so the returned
field values are read back from the table. -/
def createDownloadReturn (now : Nat) (downloadId : String)
    (req : DownloadRequest) (downloadDir : String) (st : DownloadMap) :
    DownloadMap × Option DownloadStatus :=
  let resolvedPath := resolvedDownloadPath req downloadDir
  let st1 := mset st downloadId (initialStatus now downloadId req resolvedPath)
  let st2 := updateDownloadStatus now st1 downloadId updDownloading
  (st2, mlookup st2 downloadId)

/-- Model of `createDownload` followed by the settlement of its detached
`processDownload` promise: on rejection the catch at lines 71-77
records state *failed* with the error's message. -/
def runDownload (now : Nat) (engine : EngineData) (downloadId : String)
    (req : DownloadRequest) (downloadDir : String) (st : DownloadMap) :
    DownloadMap × List Ev × Except PErr String :=
  let resolvedPath := resolvedDownloadPath req downloadDir
  let stInit := mset st downloadId (initialStatus now downloadId req resolvedPath)
  let pr := processDownload now engine downloadId req resolvedPath stInit
  match pr.2.2 with
  | Except.ok p => (pr.1, pr.2.1, Except.ok p)
  | Except.error e =>
      (updateDownloadStatus now pr.1 downloadId (updFailed e.message),
       pr.2.1, Except.error e)

/-! ### Status and file retrieval -/

/-- Typed API errors raised by the retrieval endpoints
(`Errors.DownloadNotFound`, `Errors.BadRequest`, `Errors.NotFound`; the
middleware is not in the snapshot, the constructors follow the spec's
§7 taxonomy). -/
inductive ApiError where
  | downloadNotFound (downloadId : String)
  | badRequest (msg : String)
  | notFound (what : String)
deriving DecidableEq, Repr

/-- Model of `getDownload(downloadId)` (lines 308-314). -/
def getDownload (st : DownloadMap) (downloadId : String) :
    Except ApiError DownloadStatus :=
  match mlookup st downloadId with
  | none => Except.error (ApiError.downloadNotFound downloadId)
  | some d => Except.ok d

/-- File-system oracle for `getDownloadFilePath`: which directories
exist (`fs.access`) and each directory's entry names (`fs.readdir`). -/
structure FsView where
  dirExists : String → Bool
  listing : String → List String

/-- Model of `getDownloadFilePath(downloadId)` (lines 319-358): unknown
identity → not-found; any state other than *completed* → bad request
`Download is not completed yet`; otherwise locate the manga directory
(sanitized title, falling back to the manga id) under the custom or
default base directory and return its first entry's path. -/
def getDownloadFilePath (fsv : FsView) (downloadDir : String)
    (st : DownloadMap) (downloadId : String) : Except ApiError String :=
  match getDownload st downloadId with
  | Except.error e => Except.error e
  | Except.ok download =>
    if download.status ≠ DLState.completed then
      Except.error (ApiError.badRequest "Download is not completed yet")
    else
      let folderName :=
        if jsStrTruthy download.mangaTitle then
          SanitizeFileName (download.mangaTitle.getD "")
        else
          SanitizeFileName download.mangaId
      let baseDir :=
        if jsStrTruthy download.downloadPath then download.downloadPath.getD ""
        else downloadDir
      let mangaDir := pathJoin baseDir folderName
      if fsv.dirExists mangaDir then
        match fsv.listing mangaDir with
        | [] => Except.error (ApiError.notFound "Download file")
        | entry :: _ => Except.ok (pathJoin mangaDir entry)
      else
        Except.error (ApiError.notFound "Download file")

end Haruneko

namespace Haruneko

/-! ### Pool capacity theorems -/

theorem getPage_creates_when_idle_empty (maxBrowsers : Nat) (s : PoolState)
    (h0 : s.idle = 0) (hmax : 0 < maxBrowsers) :
    getPage maxBrowsers s = some { s with checkedOut := s.checkedOut + 1 } := by
  simp [getPage, h0, hmax]

/-- C1: the spec claims the pool never has more than `C` live pages
outstanding; but `getPage`'s capacity test reads the idle-pool length
(always `0` after a failed pop), so two back-to-back acquisitions under
capacity 1 create two live pages.  This evaluates the embedded code at
that failing input. -/
theorem C1_pool_capacity_violated :
    (runPool 1 [PoolOp.acquire, PoolOp.acquire] initPool).livePages = 2 ∧
    ¬ (runPool 1 [PoolOp.acquire, PoolOp.acquire] initPool).livePages ≤ 1 := by
  constructor
  · rfl
  · decide

/-! ### Binary64 progress bounds

The rounding exponent of `flCore a b` is `E = natLog2 (a * 2 ^ k / b) - k - 52`
with `k = 55 + natLog2 b`, so `2 ^ (E + 52) ≤ a / b` and a rounding step at
that exponent moves the value by at most `2 ^ E ≤ (a / b) * eps52`.  Chaining
this relative error through the four operations of the progress expressions
bounds every fetch-phase progress value by 90. -/

theorem natLog2Fuel_le : ∀ (fuel n : Nat), 0 < n → 2 ^ natLog2Fuel fuel n ≤ n
  | 0, n, hn => by
    rw [natLog2Fuel]
    simpa using hn
  | fuel + 1, n, hn => by
    rw [natLog2Fuel]
    by_cases h : n ≤ 1
    · rw [if_pos h]
      simpa using hn
    · rw [if_neg h]
      have h2 : 2 ≤ n := by omega
      have hpos : 0 < n / 2 := Nat.div_pos h2 (by norm_num)
      have ih := natLog2Fuel_le fuel (n / 2) hpos
      calc 2 ^ (natLog2Fuel fuel (n / 2) + 1)
          = 2 ^ natLog2Fuel fuel (n / 2) * 2 := by rw [Nat.pow_succ]
        _ ≤ n / 2 * 2 := Nat.mul_le_mul_right 2 ih
        _ ≤ n := by omega

theorem natLog2Fuel_lt : ∀ (fuel n : Nat), n ≤ fuel → n < 2 ^ (natLog2Fuel fuel n + 1)
  | 0, n, h => by
    rw [natLog2Fuel]
    have : n = 0 := by omega
    simp [this]
  | fuel + 1, n, h => by
    rw [natLog2Fuel]
    by_cases h1 : n ≤ 1
    · rw [if_pos h1]
      have : (2:Nat) ^ (0 + 1) = 2 := by norm_num
      omega
    · rw [if_neg h1]
      have ih := natLog2Fuel_lt fuel (n / 2) (by omega)
      have h3 : 2 ^ (natLog2Fuel fuel (n / 2) + 1 + 1) =
          2 * 2 ^ (natLog2Fuel fuel (n / 2) + 1) := by
        rw [Nat.pow_succ]; ring
      omega

theorem natLog2_le (n : Nat) (hn : 0 < n) : 2 ^ natLog2 n ≤ n :=
  natLog2Fuel_le n n hn

theorem natLog2_lt (n : Nat) : n < 2 ^ (natLog2 n + 1) :=
  natLog2Fuel_lt n n (Nat.le_refl n)

theorem rneDiv_cases (x y : Nat) : rneDiv x y = x / y ∨ rneDiv x y = x / y + 1 := by
  simp only [rneDiv]
  split_ifs <;> simp

theorem rneDiv_mul_le (x y : Nat) : rneDiv x y * y ≤ x + y := by
  have h1 : x / y * y ≤ x := Nat.div_mul_le_self x y
  rcases rneDiv_cases x y with h | h <;> rw [h]
  · omega
  · rw [Nat.succ_mul]
    omega

theorem lt_rneDiv_mul (x y : Nat) (hy : 0 < y) : x < rneDiv x y * y + y := by
  have hmod := Nat.div_add_mod x y
  have hr : x % y < y := Nat.mod_lt x hy
  have hlt : x < x / y * y + y := by
    have : x / y * y = y * (x / y) := Nat.mul_comm _ _
    omega
  rcases rneDiv_cases x y with h | h <;> rw [h]
  · exact hlt
  · rw [Nat.succ_mul]
    omega

theorem natLog2_div_le (a b k : Nat) (hq : 0 < a * 2 ^ k / b) :
    (b : ℚ) * (2:ℚ) ^ ((natLog2 (a * 2 ^ k / b) : Int) - (k : Int)) ≤ (a : ℚ) := by
  have h1 : 2 ^ natLog2 (a * 2 ^ k / b) ≤ a * 2 ^ k / b := natLog2_le _ hq
  have h2 : a * 2 ^ k / b * b ≤ a * 2 ^ k := Nat.div_mul_le_self _ _
  have h3 : 2 ^ natLog2 (a * 2 ^ k / b) * b ≤ a * 2 ^ k :=
    le_trans (Nat.mul_le_mul_right b h1) h2
  have h4 : (2:ℚ) ^ natLog2 (a * 2 ^ k / b) * (b:ℚ) ≤ (a:ℚ) * 2 ^ k := by
    exact_mod_cast h3
  have h2k : (0:ℚ) < (2:ℚ) ^ k := by positivity
  rw [zpow_sub₀ (by norm_num : (2:ℚ) ≠ 0), zpow_natCast, zpow_natCast,
    ← mul_div_assoc, div_le_iff₀ h2k]
  calc (b:ℚ) * 2 ^ natLog2 (a * 2 ^ k / b)
      = 2 ^ natLog2 (a * 2 ^ k / b) * (b:ℚ) := mul_comm _ _
    _ ≤ (a:ℚ) * 2 ^ k := h4

theorem pow_toNat_mul (u v : Int) (h : v ≤ u) :
    (2:ℚ) ^ (u - v).toNat * (2:ℚ) ^ v = (2:ℚ) ^ u := by
  rw [← zpow_natCast (2:ℚ) (u - v).toNat, Int.toNat_of_nonneg (sub_nonneg.mpr h),
    ← zpow_add₀ (by norm_num : (2:ℚ) ≠ 0)]
  congr 1
  ring

theorem flCore_mul_bounds (a b : Nat) (ha : 0 < a) (hb : 0 < b) :
    valQ (flCore a b) * b ≤ (a : ℚ) * (1 + eps52) ∧
    (a : ℚ) * (1 - eps52) ≤ valQ (flCore a b) * b := by
  simp only [flCore]
  rw [if_neg ha.ne', if_neg hb.ne']
  set k := 55 + natLog2 b with hk
  set d := natLog2 (a * 2 ^ k / b) with hdd
  set E : Int := (d : Int) - (k : Int) - 52 with hE
  have hble : b < 2 ^ k := lt_of_lt_of_le (natLog2_lt b)
    (Nat.pow_le_pow_right (by norm_num) (by omega))
  have hq : 0 < a * 2 ^ k / b :=
    Nat.div_pos (le_trans hble.le (Nat.le_mul_of_pos_left _ ha)) hb
  have hkey : (b : ℚ) * (2:ℚ) ^ ((d : Int) - (k : Int)) ≤ (a : ℚ) :=
    natLog2_div_le a b k hq
  have hE52 : E + 52 = (d : Int) - (k : Int) := by rw [hE]; ring
  have heps : (b : ℚ) * (2:ℚ) ^ E ≤ (a : ℚ) * eps52 := by
    rw [eps52, mul_one_div, le_div_iff₀ (by positivity : (0:ℚ) < 2 ^ 52)]
    calc (b:ℚ) * (2:ℚ) ^ E * 2 ^ 52
        = (b:ℚ) * ((2:ℚ) ^ E * (2:ℚ) ^ ((52:ℕ):ℤ)) := by
          rw [zpow_natCast, mul_assoc]
      _ = (b:ℚ) * (2:ℚ) ^ (E + 52) := by
          rw [← zpow_add₀ (by norm_num : (2:ℚ) ≠ 0)]
          norm_num
      _ ≤ (a:ℚ) := by rw [hE52]; exact hkey
  have h2E : (0:ℚ) < (2:ℚ) ^ E := zpow_pos (by norm_num) E
  split
  · -- 0 ≤ E
    next hEpos =>
    set y := b * 2 ^ E.toNat with hy
    have hy0 : 0 < y := Nat.mul_pos hb (Nat.pos_pow_of_pos _ (by norm_num))
    have hyval : (y:ℚ) = (b:ℚ) * (2:ℚ) ^ E := by
      rw [hy]
      push_cast
      congr 1
      rw [← zpow_natCast (2:ℚ) E.toNat, Int.toNat_of_nonneg hEpos]
    have hval : valQ ⟨rneDiv a y, E⟩ * b = (rneDiv a y : ℚ) * y := by
      rw [valQ, hyval]
      ring
    constructor
    · rw [hval]
      have h1 : rneDiv a y * y ≤ a + y := rneDiv_mul_le a y
      have h2 : (rneDiv a y : ℚ) * y ≤ (a:ℚ) + y := by exact_mod_cast h1
      rw [hyval] at h2
      calc (rneDiv a y : ℚ) * y ≤ (a:ℚ) + (b:ℚ) * (2:ℚ) ^ E := by rw [hyval]; exact h2
        _ ≤ (a:ℚ) + (a:ℚ) * eps52 := by linarith [heps]
        _ = (a:ℚ) * (1 + eps52) := by ring
    · rw [hval]
      have h1 : a < rneDiv a y * y + y := lt_rneDiv_mul a y hy0
      have h2 : (a:ℚ) ≤ (rneDiv a y : ℚ) * y + y := by
        have := (Nat.lt_iff_add_one_le.mp h1)
        exact_mod_cast Nat.le_of_succ_le_succ (Nat.succ_le_succ (Nat.le_of_lt h1))
      rw [hyval] at h2
      calc (a:ℚ) * (1 - eps52) = (a:ℚ) - (a:ℚ) * eps52 := by ring
        _ ≤ (a:ℚ) - (b:ℚ) * (2:ℚ) ^ E := by linarith [heps]
        _ ≤ (rneDiv a y : ℚ) * y := by rw [hyval]; linarith [h2]
  · -- E < 0
    next hEneg =>
    set s := (-E).toNat with hs
    have hsE : ((s:ℕ):ℤ) = -E := by
      rw [hs]
      exact Int.toNat_of_nonneg (by omega)
    have hss : (2:ℚ) ^ (s:ℕ) * (2:ℚ) ^ E = 1 := by
      rw [← zpow_natCast (2:ℚ) s, hsE, ← zpow_add₀ (by norm_num : (2:ℚ) ≠ 0)]
      simp
    have hval : valQ ⟨rneDiv (a * 2 ^ s) b, E⟩ * b =
        (rneDiv (a * 2 ^ s) b : ℚ) * b * (2:ℚ) ^ E := by
      rw [valQ]
      ring
    constructor
    · rw [hval]
      have h1 : rneDiv (a * 2 ^ s) b * b ≤ a * 2 ^ s + b := rneDiv_mul_le _ b
      have h2 : (rneDiv (a * 2 ^ s) b : ℚ) * b ≤ (a:ℚ) * 2 ^ (s:ℕ) + b := by
        exact_mod_cast h1
      have h3 : (rneDiv (a * 2 ^ s) b : ℚ) * b * (2:ℚ) ^ E ≤
          ((a:ℚ) * 2 ^ (s:ℕ) + b) * (2:ℚ) ^ E :=
        mul_le_mul_of_nonneg_right h2 h2E.le
      calc (rneDiv (a * 2 ^ s) b : ℚ) * b * (2:ℚ) ^ E
          ≤ ((a:ℚ) * 2 ^ (s:ℕ) + b) * (2:ℚ) ^ E := h3
        _ = (a:ℚ) * ((2:ℚ) ^ (s:ℕ) * (2:ℚ) ^ E) + (b:ℚ) * (2:ℚ) ^ E := by ring
        _ = (a:ℚ) + (b:ℚ) * (2:ℚ) ^ E := by rw [hss, mul_one]
        _ ≤ (a:ℚ) + (a:ℚ) * eps52 := by linarith [heps]
        _ = (a:ℚ) * (1 + eps52) := by ring
    · rw [hval]
      have hb0 : 0 < b := hb
      have h1 : a * 2 ^ s < rneDiv (a * 2 ^ s) b * b + b := lt_rneDiv_mul _ b hb0
      have h2 : (a:ℚ) * 2 ^ (s:ℕ) ≤ (rneDiv (a * 2 ^ s) b : ℚ) * b + b := by
        exact_mod_cast Nat.le_of_lt h1
      have h3 : (a:ℚ) * 2 ^ (s:ℕ) * (2:ℚ) ^ E ≤
          ((rneDiv (a * 2 ^ s) b : ℚ) * b + b) * (2:ℚ) ^ E :=
        mul_le_mul_of_nonneg_right h2 h2E.le
      have h4 : (a:ℚ) * 2 ^ (s:ℕ) * (2:ℚ) ^ E = (a:ℚ) := by
        rw [mul_assoc, hss, mul_one]
      calc (a:ℚ) * (1 - eps52) = (a:ℚ) - (a:ℚ) * eps52 := by ring
        _ ≤ (a:ℚ) - (b:ℚ) * (2:ℚ) ^ E := by linarith [heps]
        _ ≤ (rneDiv (a * 2 ^ s) b : ℚ) * b * (2:ℚ) ^ E := by
            have h5 : ((rneDiv (a * 2 ^ s) b : ℚ) * b + b) * (2:ℚ) ^ E =
                (rneDiv (a * 2 ^ s) b : ℚ) * b * (2:ℚ) ^ E + (b:ℚ) * (2:ℚ) ^ E := by
              ring
            rw [h5] at h3
            rw [h4] at h3
            linarith [h3]

theorem valQ_nonneg (x : Dbl) : 0 ≤ valQ x := by
  rw [valQ]
  positivity

theorem flCore_zero_left (b : Nat) : flCore 0 b = ⟨0, 0⟩ := by
  rw [flCore]
  simp

theorem Dbl.m_pos_of_valQ_pos (y : Dbl) (h : 0 < valQ y) : 0 < y.m := by
  rcases Nat.eq_zero_or_pos y.m with h0 | h0
  · rw [valQ, h0] at h
    simp at h
  · exact h0

theorem ofNatD_le (n : Nat) : valQ (ofNatD n) ≤ (n : ℚ) * (1 + eps52) := by
  rcases Nat.eq_zero_or_pos n with h | h
  · subst h
    rw [ofNatD, flCore_zero_left, valQ]
    simp
  · have := (flCore_mul_bounds n 1 h Nat.one_pos).1
    rw [ofNatD]
    simpa using this

theorem ofNatD_ge (n : Nat) : (n : ℚ) * (1 - eps52) ≤ valQ (ofNatD n) := by
  rcases Nat.eq_zero_or_pos n with h | h
  · subst h
    rw [ofNatD, flCore_zero_left, valQ]
    simp
  · have := (flCore_mul_bounds n 1 h Nat.one_pos).2
    rw [ofNatD]
    simpa using this

theorem ofNatD_pos (n : Nat) (hn : 0 < n) : 0 < valQ (ofNatD n) := by
  have h1 : (0:ℚ) < (n : ℚ) * (1 - eps52) := by
    have hn' : (1:ℚ) ≤ (n:ℚ) := by exact_mod_cast hn
    have : (0:ℚ) < 1 - eps52 := by norm_num [eps52]
    nlinarith
  exact lt_of_lt_of_le h1 (ofNatD_ge n)

theorem valQ_dDiv (x y : Dbl) :
    valQ (dDiv x y) = valQ (flCore x.m y.m) * (2:ℚ) ^ (x.e - y.e) := by
  show ((flCore x.m y.m).m : ℚ) * (2:ℚ) ^ ((flCore x.m y.m).e + x.e - y.e) = _
  rw [show (flCore x.m y.m).e + x.e - y.e = (flCore x.m y.m).e + (x.e - y.e) from by ring,
    zpow_add₀ (by norm_num : (2:ℚ) ≠ 0), valQ, mul_assoc]

theorem dDiv_mul_le (x y : Dbl) (hy : 0 < valQ y) :
    valQ (dDiv x y) * valQ y ≤ valQ x * (1 + eps52) := by
  have hym : 0 < y.m := Dbl.m_pos_of_valQ_pos y hy
  rcases Nat.eq_zero_or_pos x.m with hx | hx
  · rw [valQ_dDiv, hx, flCore_zero_left]
    have h1 : valQ (⟨0, 0⟩ : Dbl) = 0 := by rw [valQ]; simp
    rw [h1, zero_mul, zero_mul]
    have h2 : valQ x = 0 := by rw [valQ, hx]; simp
    rw [h2, zero_mul]
  · have hcore := (flCore_mul_bounds x.m y.m hx hym).1
    rw [valQ_dDiv]
    have hkey : valQ (flCore x.m y.m) * (2:ℚ) ^ (x.e - y.e) * valQ y =
        valQ (flCore x.m y.m) * (y.m:ℚ) * ((2:ℚ) ^ (x.e - y.e) * (2:ℚ) ^ y.e) := by
      rw [show valQ y = (y.m:ℚ) * (2:ℚ) ^ y.e from rfl]
      ring
    rw [hkey, ← zpow_add₀ (by norm_num : (2:ℚ) ≠ 0), sub_add_cancel]
    calc valQ (flCore x.m y.m) * (y.m:ℚ) * (2:ℚ) ^ x.e
        ≤ (x.m:ℚ) * (1 + eps52) * (2:ℚ) ^ x.e :=
          mul_le_mul_of_nonneg_right hcore (zpow_pos (by norm_num) _).le
      _ = valQ x * (1 + eps52) := by
          rw [show valQ x = (x.m:ℚ) * (2:ℚ) ^ x.e from rfl]
          ring

theorem le_dDiv_mul (x y : Dbl) (hx : 0 < x.m) (hy : 0 < valQ y) :
    valQ x * (1 - eps52) ≤ valQ (dDiv x y) * valQ y := by
  have hym : 0 < y.m := Dbl.m_pos_of_valQ_pos y hy
  have hcore := (flCore_mul_bounds x.m y.m hx hym).2
  rw [valQ_dDiv]
  have hkey : valQ (flCore x.m y.m) * (2:ℚ) ^ (x.e - y.e) * valQ y =
      valQ (flCore x.m y.m) * (y.m:ℚ) * ((2:ℚ) ^ (x.e - y.e) * (2:ℚ) ^ y.e) := by
    rw [show valQ y = (y.m:ℚ) * (2:ℚ) ^ y.e from rfl]
    ring
  rw [hkey, ← zpow_add₀ (by norm_num : (2:ℚ) ≠ 0), sub_add_cancel]
  calc valQ x * (1 - eps52) = (x.m:ℚ) * (1 - eps52) * (2:ℚ) ^ x.e := by
        rw [show valQ x = (x.m:ℚ) * (2:ℚ) ^ x.e from rfl]
        ring
    _ ≤ valQ (flCore x.m y.m) * (y.m:ℚ) * (2:ℚ) ^ x.e :=
        mul_le_mul_of_nonneg_right hcore (zpow_pos (by norm_num) _).le

theorem valQ_dMul (x y : Dbl) :
    valQ (dMul x y) = valQ (flCore (x.m * y.m) 1) * (2:ℚ) ^ (x.e + y.e) := by
  show ((flCore (x.m * y.m) 1).m : ℚ) *
      (2:ℚ) ^ ((flCore (x.m * y.m) 1).e + x.e + y.e) = _
  rw [show (flCore (x.m * y.m) 1).e + x.e + y.e =
      (flCore (x.m * y.m) 1).e + (x.e + y.e) from by ring,
    zpow_add₀ (by norm_num : (2:ℚ) ≠ 0), valQ, mul_assoc]

theorem dMul_le (x y : Dbl) : valQ (dMul x y) ≤ valQ x * valQ y * (1 + eps52) := by
  rcases Nat.eq_zero_or_pos (x.m * y.m) with hp | hp
  · rw [valQ_dMul, hp, flCore_zero_left]
    have h1 : valQ (⟨0, 0⟩ : Dbl) = 0 := by rw [valQ]; simp
    rw [h1, zero_mul]
    have h2 : (0:ℚ) ≤ valQ x * valQ y * (1 + eps52) := by
      have := valQ_nonneg x
      have := valQ_nonneg y
      have : (0:ℚ) ≤ 1 + eps52 := by norm_num [eps52]
      positivity
    exact h2
  · have hcore := (flCore_mul_bounds (x.m * y.m) 1 hp Nat.one_pos).1
    rw [valQ_dMul]
    calc valQ (flCore (x.m * y.m) 1) * (2:ℚ) ^ (x.e + y.e)
        ≤ ((x.m * y.m : ℕ):ℚ) * (1 + eps52) * (2:ℚ) ^ (x.e + y.e) := by
          apply mul_le_mul_of_nonneg_right _ (zpow_pos (by norm_num) _).le
          simpa using hcore
      _ = valQ x * valQ y * (1 + eps52) := by
          rw [valQ, valQ, zpow_add₀ (by norm_num : (2:ℚ) ≠ 0)]
          push_cast
          ring

theorem dAdd_exact (x y : Dbl) :
    ((x.m * 2 ^ (x.e - min x.e y.e).toNat +
      y.m * 2 ^ (y.e - min x.e y.e).toNat : ℕ) : ℚ) * (2:ℚ) ^ (min x.e y.e) =
      valQ x + valQ y := by
  push_cast
  rw [add_mul, show valQ x = (x.m:ℚ) * (2:ℚ) ^ x.e from rfl,
    show valQ y = (y.m:ℚ) * (2:ℚ) ^ y.e from rfl,
    mul_assoc ((x.m:ℚ)), mul_assoc ((y.m:ℚ)),
    pow_toNat_mul x.e (min x.e y.e) (min_le_left _ _),
    pow_toNat_mul y.e (min x.e y.e) (min_le_right _ _)]

theorem valQ_dAdd (x y : Dbl) :
    valQ (dAdd x y) =
      valQ (flCore (x.m * 2 ^ (x.e - min x.e y.e).toNat +
        y.m * 2 ^ (y.e - min x.e y.e).toNat) 1) * (2:ℚ) ^ (min x.e y.e) := by
  show ((flCore _ 1).m : ℚ) * (2:ℚ) ^ ((flCore _ 1).e + min x.e y.e) = _
  rw [zpow_add₀ (by norm_num : (2:ℚ) ≠ 0), valQ, mul_assoc]

theorem dAdd_le (x y : Dbl) :
    valQ (dAdd x y) ≤ (valQ x + valQ y) * (1 + eps52) := by
  set w := x.m * 2 ^ (x.e - min x.e y.e).toNat +
    y.m * 2 ^ (y.e - min x.e y.e).toNat with hw
  rcases Nat.eq_zero_or_pos w with hp | hp
  · rw [valQ_dAdd, ← hw, hp, flCore_zero_left]
    have h1 : valQ (⟨0, 0⟩ : Dbl) = 0 := by rw [valQ]; simp
    rw [h1, zero_mul]
    have hsum : valQ x + valQ y = 0 := by
      rw [← dAdd_exact x y, ← hw, hp]
      simp
    rw [hsum, zero_mul]
  · have hcore := (flCore_mul_bounds w 1 hp Nat.one_pos).1
    rw [valQ_dAdd, ← hw]
    calc valQ (flCore w 1) * (2:ℚ) ^ (min x.e y.e)
        ≤ (w:ℚ) * (1 + eps52) * (2:ℚ) ^ (min x.e y.e) := by
          apply mul_le_mul_of_nonneg_right _ (zpow_pos (by norm_num) _).le
          simpa using hcore
      _ = (w:ℚ) * (2:ℚ) ^ (min x.e y.e) * (1 + eps52) := by ring
      _ = (valQ x + valQ y) * (1 + eps52) := by
          rw [← dAdd_exact x y, ← hw]

theorem dFloor_le_valQ (x : Dbl) : ((dFloor x : Int) : ℚ) ≤ valQ x := by
  rw [dFloor, valQ]
  split
  · next h =>
    push_cast
    rw [← zpow_natCast (2:ℚ) x.e.toNat, Int.toNat_of_nonneg h]
  · next h =>
    have hneg : ((( -x.e).toNat : ℕ) : ℤ) = -x.e := Int.toNat_of_nonneg (by omega)
    have h1 : ((x.m / 2 ^ (-x.e).toNat : ℕ) : ℚ) ≤
        (x.m : ℚ) / ((2 ^ (-x.e).toNat : ℕ) : ℚ) := Nat.cast_div_le
    have h2 : ((2 ^ (-x.e).toNat : ℕ) : ℚ) = (2:ℚ) ^ ((-x.e).toNat : ℕ) := by push_cast; ring
    have h3 : (x.m : ℚ) / (2:ℚ) ^ ((-x.e).toNat : ℕ) = (x.m : ℚ) * (2:ℚ) ^ x.e := by
      rw [div_eq_mul_inv]
      congr 1
      rw [← zpow_natCast (2:ℚ) ((-x.e).toNat), hneg, zpow_neg]
      simp
    rw [h2, h3] at h1
    rw [Int.cast_natCast]
    exact h1

theorem chapterStartProgress_le_90 (c t : Nat) (hct : c < t) :
    chapterStartProgress c t ≤ 90 := by
  have ht : 0 < t := Nat.lt_of_le_of_lt (Nat.zero_le c) hct
  rw [chapterStartProgress]
  set C := ofNatD c with hC
  set T := ofNatD t with hT
  set V := ofNatD 90 with hV
  set Y := dDiv C T with hY
  set Z := dMul Y V with hZ
  have hTpos : 0 < valQ T := ofNatD_pos t ht
  have hY0 : 0 ≤ valQ Y := valQ_nonneg Y
  have hV0 : 0 ≤ valQ V := valQ_nonneg V
  have hCle : valQ C ≤ (c:ℚ) * (1 + eps52) := ofNatD_le c
  have hTge : (t:ℚ) * (1 - eps52) ≤ valQ T := ofNatD_ge t
  have hVle : valQ V ≤ 90 * (1 + eps52) := by
    have := ofNatD_le 90
    rw [← hV] at this
    calc valQ V ≤ ((90:ℕ):ℚ) * (1 + eps52) := this
      _ = 90 * (1 + eps52) := by norm_num
  have hYT : valQ Y * valQ T ≤ valQ C * (1 + eps52) := dDiv_mul_le C T hTpos
  have hcq : (c:ℚ) ≤ (t:ℚ) - 1 := by
    have h1 : (c:ℚ) + 1 ≤ (t:ℚ) := by exact_mod_cast hct
    linarith
  have ht1 : (1:ℚ) ≤ (t:ℚ) := by exact_mod_cast ht
  have ht0 : (0:ℚ) < (t:ℚ) := by exact_mod_cast ht
  have h1 : (valQ Y * (1 - eps52)) * (t:ℚ) ≤ ((1 + eps52) ^ 2) * (t:ℚ) := by
    have e1 : (valQ Y * (1 - eps52)) * (t:ℚ) = valQ Y * ((t:ℚ) * (1 - eps52)) := by ring
    rw [e1]
    calc valQ Y * ((t:ℚ) * (1 - eps52)) ≤ valQ Y * valQ T :=
          mul_le_mul_of_nonneg_left hTge hY0
      _ ≤ valQ C * (1 + eps52) := hYT
      _ ≤ ((c:ℚ) * (1 + eps52)) * (1 + eps52) :=
          mul_le_mul_of_nonneg_right hCle (by norm_num [eps52])
      _ ≤ ((1 + eps52) ^ 2) * (t:ℚ) := by
          have h2 : (c:ℚ) ≤ (t:ℚ) := by linarith
          have h3 : (0:ℚ) ≤ (1 + eps52) ^ 2 := sq_nonneg _
          have h4 : ((c:ℚ) * (1 + eps52)) * (1 + eps52) = (c:ℚ) * (1 + eps52) ^ 2 := by
            ring
          rw [h4, mul_comm ((1 + eps52) ^ 2) (t:ℚ)]
          exact mul_le_mul_of_nonneg_right h2 h3
  have h2 : valQ Y * (1 - eps52) ≤ (1 + eps52) ^ 2 := le_of_mul_le_mul_right h1 ht0
  have h3 : (1 + eps52) ^ 2 ≤ (1 + 1 / 100000) * (1 - eps52) := by norm_num [eps52]
  have hYb : valQ Y ≤ 1 + 1 / 100000 :=
    le_of_mul_le_mul_right (le_trans h2 h3) (by norm_num [eps52])
  have hZb : valQ Z < 91 := by
    have h5 : valQ Y * valQ V ≤ (1 + 1 / 100000) * (90 * (1 + eps52)) :=
      mul_le_mul hYb hVle hV0 (by norm_num)
    calc valQ Z ≤ valQ Y * valQ V * (1 + eps52) := dMul_le Y V
      _ ≤ ((1 + 1 / 100000) * (90 * (1 + eps52))) * (1 + eps52) :=
          mul_le_mul_of_nonneg_right h5 (by norm_num [eps52])
      _ < 91 := by norm_num [eps52]
  have h6 : ((dFloor Z : Int) : ℚ) < 91 := lt_of_le_of_lt (dFloor_le_valQ Z) hZb
  have h7 : dFloor Z < (91 : Int) := by exact_mod_cast h6
  omega

theorem pageProgress_le_90 (c p n t : Nat) (hn : 0 < n) (hp : p ≤ n) (hct : c < t) :
    pageProgress c p n t ≤ 90 := by
  have ht : 0 < t := Nat.lt_of_le_of_lt (Nat.zero_le c) hct
  rw [pageProgress]
  set C := ofNatD c with hC
  set P := ofNatD p with hP
  set N := ofNatD n with hN
  set T := ofNatD t with hT
  set V := ofNatD 90 with hV
  set X := dDiv P N with hX
  set Sm := dAdd C X with hSm
  set Y := dDiv Sm T with hY
  set Z := dMul Y V with hZ
  have hNpos : 0 < valQ N := ofNatD_pos n hn
  have hTpos : 0 < valQ T := ofNatD_pos t ht
  have hX0 : 0 ≤ valQ X := valQ_nonneg X
  have hY0 : 0 ≤ valQ Y := valQ_nonneg Y
  have hV0 : 0 ≤ valQ V := valQ_nonneg V
  have hPle : valQ P ≤ (p:ℚ) * (1 + eps52) := ofNatD_le p
  have hNge : (n:ℚ) * (1 - eps52) ≤ valQ N := ofNatD_ge n
  have hCle : valQ C ≤ (c:ℚ) * (1 + eps52) := ofNatD_le c
  have hTge : (t:ℚ) * (1 - eps52) ≤ valQ T := ofNatD_ge t
  have hVle : valQ V ≤ 90 * (1 + eps52) := by
    have := ofNatD_le 90
    rw [← hV] at this
    calc valQ V ≤ ((90:ℕ):ℚ) * (1 + eps52) := this
      _ = 90 * (1 + eps52) := by norm_num
  have hXN : valQ X * valQ N ≤ valQ P * (1 + eps52) := dDiv_mul_le P N hNpos
  have hSle : valQ Sm ≤ (valQ C + valQ X) * (1 + eps52) := dAdd_le C X
  have hYT : valQ Y * valQ T ≤ valQ Sm * (1 + eps52) := dDiv_mul_le Sm T hTpos
  have hn0 : (0:ℚ) < (n:ℚ) := by exact_mod_cast hn
  have ht0 : (0:ℚ) < (t:ℚ) := by exact_mod_cast ht
  have ht1 : (1:ℚ) ≤ (t:ℚ) := by exact_mod_cast ht
  have hcq : (c:ℚ) ≤ (t:ℚ) - 1 := by
    have h1 : (c:ℚ) + 1 ≤ (t:ℚ) := by exact_mod_cast hct
    linarith
  -- bound the inner quotient p / n by 1 + 1/100000
  have h1 : (valQ X * (1 - eps52)) * (n:ℚ) ≤ ((1 + eps52) ^ 2) * (n:ℚ) := by
    have e1 : (valQ X * (1 - eps52)) * (n:ℚ) = valQ X * ((n:ℚ) * (1 - eps52)) := by ring
    rw [e1]
    calc valQ X * ((n:ℚ) * (1 - eps52)) ≤ valQ X * valQ N :=
          mul_le_mul_of_nonneg_left hNge hX0
      _ ≤ valQ P * (1 + eps52) := hXN
      _ ≤ ((p:ℚ) * (1 + eps52)) * (1 + eps52) :=
          mul_le_mul_of_nonneg_right hPle (by norm_num [eps52])
      _ ≤ ((1 + eps52) ^ 2) * (n:ℚ) := by
          have hpn : (p:ℚ) ≤ (n:ℚ) := by exact_mod_cast hp
          have h3 : (0:ℚ) ≤ (1 + eps52) ^ 2 := sq_nonneg _
          have h4 : ((p:ℚ) * (1 + eps52)) * (1 + eps52) = (p:ℚ) * (1 + eps52) ^ 2 := by
            ring
          rw [h4, mul_comm ((1 + eps52) ^ 2) (n:ℚ)]
          exact mul_le_mul_of_nonneg_right hpn h3
  have h2 : valQ X * (1 - eps52) ≤ (1 + eps52) ^ 2 := le_of_mul_le_mul_right h1 hn0
  have h3 : (1 + eps52) ^ 2 ≤ (1 + 1 / 100000) * (1 - eps52) := by norm_num [eps52]
  have hXb : valQ X ≤ 1 + 1 / 100000 :=
    le_of_mul_le_mul_right (le_trans h2 h3) (by norm_num [eps52])
  -- bound the sum
  have hSb : valQ Sm ≤ ((c:ℚ) * (1 + eps52) + (1 + 1 / 100000)) * (1 + eps52) := by
    refine le_trans hSle (mul_le_mul_of_nonneg_right ?_ (by norm_num [eps52]))
    exact add_le_add hCle hXb
  -- bound the outer quotient by 1 + 1/10000
  have h5 : (valQ Y * (1 - eps52)) * (t:ℚ) ≤
      ((1 + eps52 + 1 / 100000) * (1 + eps52) ^ 2) * (t:ℚ) := by
    have e1 : (valQ Y * (1 - eps52)) * (t:ℚ) = valQ Y * ((t:ℚ) * (1 - eps52)) := by ring
    rw [e1]
    have hstep : (c:ℚ) * (1 + eps52) + (1 + 1 / 100000) ≤
        (1 + eps52 + 1 / 100000) * (t:ℚ) := by
      have h6 : (c:ℚ) * (1 + eps52) ≤ ((t:ℚ) - 1) * (1 + eps52) :=
        mul_le_mul_of_nonneg_right hcq (by norm_num [eps52])
      have h7 : (1:ℚ) / 100000 ≤ (t:ℚ) / 100000 := by linarith
      have h8 : (0:ℚ) ≤ eps52 := by norm_num [eps52]
      nlinarith [h6, h7, h8]
    calc valQ Y * ((t:ℚ) * (1 - eps52)) ≤ valQ Y * valQ T :=
          mul_le_mul_of_nonneg_left hTge hY0
      _ ≤ valQ Sm * (1 + eps52) := hYT
      _ ≤ (((c:ℚ) * (1 + eps52) + (1 + 1 / 100000)) * (1 + eps52)) * (1 + eps52) :=
          mul_le_mul_of_nonneg_right hSb (by norm_num [eps52])
      _ = ((c:ℚ) * (1 + eps52) + (1 + 1 / 100000)) * (1 + eps52) ^ 2 := by ring
      _ ≤ ((1 + eps52 + 1 / 100000) * (t:ℚ)) * (1 + eps52) ^ 2 :=
          mul_le_mul_of_nonneg_right hstep (sq_nonneg _)
      _ = ((1 + eps52 + 1 / 100000) * (1 + eps52) ^ 2) * (t:ℚ) := by ring
  have h9 : valQ Y * (1 - eps52) ≤ (1 + eps52 + 1 / 100000) * (1 + eps52) ^ 2 :=
    le_of_mul_le_mul_right h5 ht0
  have h10 : (1 + eps52 + 1 / 100000) * (1 + eps52) ^ 2 ≤
      (1 + 1 / 10000) * (1 - eps52) := by norm_num [eps52]
  have hYb : valQ Y ≤ 1 + 1 / 10000 :=
    le_of_mul_le_mul_right (le_trans h9 h10) (by norm_num [eps52])
  -- bound the product and floor
  have hZb : valQ Z < 91 := by
    have h11 : valQ Y * valQ V ≤ (1 + 1 / 10000) * (90 * (1 + eps52)) :=
      mul_le_mul hYb hVle hV0 (by norm_num)
    calc valQ Z ≤ valQ Y * valQ V * (1 + eps52) := dMul_le Y V
      _ ≤ ((1 + 1 / 10000) * (90 * (1 + eps52))) * (1 + eps52) :=
          mul_le_mul_of_nonneg_right h11 (by norm_num [eps52])
      _ < 91 := by norm_num [eps52]
  have h12 : ((dFloor Z : Int) : ℚ) < 91 := lt_of_le_of_lt (dFloor_le_valQ Z) hZb
  have h13 : dFloor Z < (91 : Int) := by exact_mod_cast h12
  omega

/-! ### Header sanitization theorems -/

theorem foldNewlinesGo_no_crlf : ∀ (b : Bool) (cs : List Char),
    ∀ c ∈ foldNewlinesGo b cs, isCRLF c = false
  | b, [], c, hc => by simp [foldNewlinesGo] at hc
  | b, a :: rest, c, hc => by
    rw [foldNewlinesGo] at hc
    by_cases ha : isCRLF a = true
    · by_cases hb : b = true
      · simp only [ha, hb, if_true] at hc
        exact foldNewlinesGo_no_crlf true rest c hc
      · rw [Bool.not_eq_true] at hb
        simp only [ha, hb, if_true, Bool.false_eq_true, if_false,
          List.mem_cons] at hc
        rcases hc with h | h | h
        · simp [h, isCRLF]
        · simp [h, isCRLF]
        · exact foldNewlinesGo_no_crlf true rest c h
    · rw [Bool.not_eq_true] at ha
      simp only [ha, Bool.false_eq_true, if_false, List.mem_cons] at hc
      rcases hc with h | h
      · rw [h]; exact ha
      · exact foldNewlinesGo_no_crlf false rest c h

theorem foldNewlines_no_crlf (cs : List Char) :
    ∀ c ∈ foldNewlines cs, isCRLF c = false :=
  foldNewlinesGo_no_crlf false cs

/-- C7: `sanitizeHeaders` folds every newline run in a value into a
comma-joined single-line value, drops any entry whose folded value still
has a control character, and so no output value contains a raw control
character (and none contains a carriage return or newline). -/
theorem C7_sanitizeHeaders_no_control_chars :
    ∀ (entries : List (String × String)) (kv : String × String),
      kv ∈ sanitizeHeaders entries →
      (∃ v₀, (kv.1, v₀) ∈ entries ∧ kv.2.data = foldNewlines v₀.data) ∧
      hasCtl kv.2 = false ∧
      ∀ c ∈ kv.2.data, isCRLF c = false := by
  intro entries kv hkv
  rw [sanitizeHeaders, List.mem_filterMap] at hkv
  obtain ⟨⟨k, v⟩, hmem, happ⟩ := hkv
  by_cases hctl : hasCtl (String.mk (foldNewlines v.data)) = true
  · simp [hctl] at happ
  · rw [Bool.not_eq_true] at hctl
    simp only [hctl, Bool.false_eq_true, if_false, Option.some.injEq] at happ
    subst happ
    refine ⟨⟨v, hmem, rfl⟩, hctl, ?_⟩
    intro c hc
    exact foldNewlines_no_crlf v.data c hc

/-! ### Chapter-number extraction theorems -/

theorem mem_of_mem_dropWhile {α : Type} (p : α → Bool) :
    ∀ (l : List α) (x : α), x ∈ l.dropWhile p → x ∈ l
  | [], x, hx => by simp [List.dropWhile] at hx
  | a :: l, x, hx => by
    rw [List.dropWhile_cons] at hx
    by_cases hp : p a = true
    · simp only [hp, if_true] at hx
      exact List.mem_cons_of_mem a (mem_of_mem_dropWhile p l x hx)
    · rw [Bool.not_eq_true] at hp
      simp only [hp, Bool.false_eq_true, if_false] at hx
      exact hx

theorem stripCIWord_mem : ∀ (ws cs rest : List Char),
    stripCIWord ws cs = some rest → ∀ x ∈ rest, x ∈ cs
  | [], cs, rest, h, x, hx => by
    rw [stripCIWord] at h
    cases h
    exact hx
  | w :: ws, [], rest, h, x, hx => by
    rw [stripCIWord] at h
    cases h
  | w :: ws, c :: cs, rest, h, x, hx => by
    rw [stripCIWord] at h
    by_cases hc : ciEq w c = true
    · simp only [hc, if_true] at h
      exact List.mem_cons_of_mem c (stripCIWord_mem ws cs rest h x hx)
    · rw [Bool.not_eq_true] at hc
      simp [hc] at h

theorem numAt_eq_none (cs : List Char) (h : ∀ c ∈ cs, c.isDigit = false) :
    numAt cs = none := by
  cases cs with
  | nil => rfl
  | cons a l =>
    have ha : Char.isDigit a = false := h a (List.mem_cons_self a l)
    rw [numAt]
    simp [List.takeWhile_cons, ha]

theorem matchChAt_eq_none (cs : List Char) (h : ∀ c ∈ cs, c.isDigit = false) :
    matchChAt cs = none := by
  cases cs with
  | nil => rfl
  | cons c rest =>
    simp only [matchChAt.eq_def]
    by_cases hc : ciEq c 'c' = true
    · simp only [hc, if_true]
      cases rest with
      | nil => rfl
      | cons h2 rest2 =>
        by_cases hh : ciEq h2 'h' = true
        · simp only [hh, if_true]
          have hrest2 : ∀ x ∈ rest2, x.isDigit = false := fun x hx =>
            h x (List.mem_cons_of_mem c (List.mem_cons_of_mem h2 hx))
          cases rest2 with
          | nil => rfl
          | cons d rest3 =>
            have hrest3 : ∀ x ∈ rest3, x.isDigit = false := fun x hx =>
              hrest2 x (List.mem_cons_of_mem d hx)
            by_cases hd : d = '.'
            · subst hd
              exact numAt_eq_none rest3 hrest3
            · split
              · next r heq => exact absurd heq (by simp [hd])
              · exact numAt_eq_none (d :: rest3) hrest2
        · rw [Bool.not_eq_true] at hh
          simp [hh]
    · rw [Bool.not_eq_true] at hc
      simp [hc]

theorem matchCh_eq_none : ∀ (cs : List Char), (∀ c ∈ cs, c.isDigit = false) →
    matchCh cs = none
  | [], _ => rfl
  | c :: rest, h => by
    rw [matchCh, matchChAt_eq_none (c :: rest) h, Option.orElse]
    exact matchCh_eq_none rest fun x hx => h x (List.mem_cons_of_mem c hx)

theorem matchChapterWordAt_eq_none (cs : List Char)
    (h : ∀ c ∈ cs, c.isDigit = false) : matchChapterWordAt cs = none := by
  rw [matchChapterWordAt]
  cases hs : stripCIWord "chapter".data cs with
  | none => rfl
  | some rest =>
    exact numAt_eq_none _ fun x hx =>
      h x (stripCIWord_mem _ cs rest hs x (mem_of_mem_dropWhile _ rest x hx))

theorem matchChapterWord_eq_none : ∀ (cs : List Char),
    (∀ c ∈ cs, c.isDigit = false) → matchChapterWord cs = none
  | [], _ => rfl
  | c :: rest, h => by
    rw [matchChapterWord, matchChapterWordAt_eq_none (c :: rest) h, Option.orElse]
    exact matchChapterWord_eq_none rest fun x hx => h x (List.mem_cons_of_mem c hx)

theorem findNum_eq_none : ∀ (cs : List Char),
    (∀ c ∈ cs, c.isDigit = false) → findNum cs = none
  | [], _ => rfl
  | c :: rest, h => by
    rw [findNum, numAt_eq_none (c :: rest) h, Option.orElse]
    exact findNum_eq_none rest fun x hx => h x (List.mem_cons_of_mem c hx)

/-- C4: the three documented examples of `extractChapterNumber`; a title
with no digit anywhere falls back to the sanitized full title; the four
patterns are consulted in priority order (`Ch.<n>`, `Chapter <n>`,
leading number, any number), the first match being normalized through
`parseFloat`/`toString`; and that normalization removes leading zeros
from the matched numeral. -/
theorem C4_extractChapterNumber_spec :
    extractChapterNumber "Ch.001 - The Black Swordsman" = "1" ∧
    extractChapterNumber "Chapter 42.5" = "42.5" ∧
    extractChapterNumber "Vol.1 Chapter 3" = "3" ∧
    (∀ t : String, (∀ c ∈ t.data, c.isDigit = false) →
        extractChapterNumber t = SanitizeFileName t) ∧
    (∀ (t : String) (n : List Char), matchCh t.data = some n →
        extractChapterNumber t = jsNumToString n) ∧
    (∀ (t : String) (n : List Char), matchCh t.data = none →
        matchChapterWord t.data = some n →
        extractChapterNumber t = jsNumToString n) ∧
    (∀ (t : String) (n : List Char), matchCh t.data = none →
        matchChapterWord t.data = none → numAt t.data = some n →
        extractChapterNumber t = jsNumToString n) ∧
    (∀ (t : String) (n : List Char), matchCh t.data = none →
        matchChapterWord t.data = none → numAt t.data = none →
        findNum t.data = some n →
        extractChapterNumber t = jsNumToString n) ∧
    (∀ num : List Char, jsNumToString ('0' :: num) = jsNumToString num) := by
  refine ⟨by decide, by decide, by decide, ?_, ?_, ?_, ?_, ?_, ?_⟩
  · intro t h
    rw [extractChapterNumber, matchCh_eq_none t.data h,
      matchChapterWord_eq_none t.data h, numAt_eq_none t.data h,
      findNum_eq_none t.data h]
  · intro t n h
    rw [extractChapterNumber, h]
  · intro t n h1 h2
    rw [extractChapterNumber, h1, h2]
  · intro t n h1 h2 h3
    rw [extractChapterNumber, h1, h2, h3]
  · intro t n h1 h2 h3 h4
    rw [extractChapterNumber, h1, h2, h3, h4]
  · intro num
    rw [jsNumToString, jsNumToString]
    simp only [List.takeWhile_cons, List.dropWhile_cons, Char.isDigit]
    norm_num
    simp [stripLeadingZeros, List.dropWhile_cons]

/-- Witness for C4's quantified parts at concrete titles: the no-digit
fallback, the priority of the `Ch.<n>` pattern, and leading-zero
removal. -/
theorem C4_witness :
    ((∀ c ∈ ("The Black Swordsman!" : String).data, c.isDigit = false) ∧
      extractChapterNumber "The Black Swordsman!" =
        SanitizeFileName "The Black Swordsman!") ∧
    (matchCh ("Ch.007 Chapter 8" : String).data = some "007".data ∧
      extractChapterNumber "Ch.007 Chapter 8" = jsNumToString "007".data) ∧
    jsNumToString ('0' :: "07".data) = jsNumToString "07".data :=
  ⟨⟨by decide, C4_extractChapterNumber_spec.2.2.2.1 "The Black Swordsman!" (by decide)⟩,
   ⟨by decide, C4_extractChapterNumber_spec.2.2.2.2.1 "Ch.007 Chapter 8" "007".data (by decide)⟩,
   C4_extractChapterNumber_spec.2.2.2.2.2.2.2.2 "07".data⟩

/-! ### Download-table lemmas -/

theorem mlookup_mset_self : ∀ (m : DownloadMap) (k : String) (v : DownloadStatus),
    mlookup (mset m k v) k = some v
  | [], k, v => by simp [mset, mlookup]
  | (k', w) :: rest, k, v => by
    rw [mset]
    by_cases h : k' = k
    · simp [h, mlookup]
    · simp only [h, if_false]
      rw [mlookup, if_neg h]
      exact mlookup_mset_self rest k v

theorem mlookup_mset_ne : ∀ (m : DownloadMap) (k k' : String) (v : DownloadStatus),
    k ≠ k' → mlookup (mset m k v) k' = mlookup m k'
  | [], k, k', v, h => by simp [mset, mlookup, h]
  | (k0, w) :: rest, k, k', v, h => by
    rw [mset]
    by_cases h0 : k0 = k
    · subst h0
      rw [if_pos rfl, mlookup, if_neg h, mlookup, if_neg h]
    · simp only [h0, if_false]
      rw [mlookup, mlookup]
      by_cases h1 : k0 = k'
      · simp [h1]
      · simp only [h1, if_false]
        exact mlookup_mset_ne rest k k' v h

theorem updateDownloadStatus_absent (now : Nat) (m : DownloadMap) (id : String)
    (u : StatusUpdate) (h : mlookup m id = none) :
    updateDownloadStatus now m id u = m := by
  rw [updateDownloadStatus, h]

theorem updateDownloadStatus_present (now : Nat) (m : DownloadMap) (id : String)
    (u : StatusUpdate) (d : DownloadStatus) (h : mlookup m id = some d) :
    updateDownloadStatus now m id u = mset m id (applyUpdate now d u) := by
  rw [updateDownloadStatus, h]

theorem mlookup_update_self (now : Nat) (m : DownloadMap) (id : String)
    (u : StatusUpdate) (d : DownloadStatus) (h : mlookup m id = some d) :
    mlookup (updateDownloadStatus now m id u) id = some (applyUpdate now d u) := by
  rw [updateDownloadStatus_present now m id u d h]
  exact mlookup_mset_self m id _

/-- C10: `updateDownloadStatus` on an absent identity changes nothing
(no record created, no error — the function is total); on a present
identity it rewrites exactly that entry with the partial update applied,
leaves every other entry alone, refreshes `updatedAt`, and leaves every
field the update does not name unchanged; and no update the service's
call sites construct names `id`, `sourceId`, `mangaId`, `chapterIds`,
`format` or `createdAt`, so those are never modified after creation. -/
theorem C10_updateDownloadStatus_frame :
    (∀ (now : Nat) (m : DownloadMap) (id : String) (u : StatusUpdate),
        mlookup m id = none → updateDownloadStatus now m id u = m) ∧
    (∀ (now : Nat) (m : DownloadMap) (id : String) (u : StatusUpdate)
        (d : DownloadStatus), mlookup m id = some d →
        mlookup (updateDownloadStatus now m id u) id = some (applyUpdate now d u) ∧
        (∀ id', id ≠ id' →
          mlookup (updateDownloadStatus now m id u) id' = mlookup m id') ∧
        (applyUpdate now d u).updatedAt = now ∧
        (u.id = none → (applyUpdate now d u).id = d.id) ∧
        (u.sourceId = none → (applyUpdate now d u).sourceId = d.sourceId) ∧
        (u.mangaId = none → (applyUpdate now d u).mangaId = d.mangaId) ∧
        (u.chapterIds = none → (applyUpdate now d u).chapterIds = d.chapterIds) ∧
        (u.status = none → (applyUpdate now d u).status = d.status) ∧
        (u.progress = none → (applyUpdate now d u).progress = d.progress) ∧
        (u.format = none → (applyUpdate now d u).format = d.format) ∧
        (u.downloadPath = none → (applyUpdate now d u).downloadPath = d.downloadPath) ∧
        (u.createdAt = none → (applyUpdate now d u).createdAt = d.createdAt) ∧
        (u.error = none → (applyUpdate now d u).error = d.error) ∧
        (u.mangaTitle = none → (applyUpdate now d u).mangaTitle = d.mangaTitle) ∧
        (u.currentChapter = none → (applyUpdate now d u).currentChapter = d.currentChapter) ∧
        (u.completedAt = none → (applyUpdate now d u).completedAt = d.completedAt) ∧
        (u.fileUrl = none → (applyUpdate now d u).fileUrl = d.fileUrl)) ∧
    (∀ (u : StatusUpdate), IsCallSiteUpdate u → ∀ (now : Nat) (d : DownloadStatus),
        (applyUpdate now d u).id = d.id ∧
        (applyUpdate now d u).sourceId = d.sourceId ∧
        (applyUpdate now d u).mangaId = d.mangaId ∧
        (applyUpdate now d u).chapterIds = d.chapterIds ∧
        (applyUpdate now d u).format = d.format ∧
        (applyUpdate now d u).createdAt = d.createdAt) := by
  refine ⟨updateDownloadStatus_absent, ?_, ?_⟩
  · intro now m id u d h
    refine ⟨mlookup_update_self now m id u d h, ?_, rfl, ?_, ?_, ?_, ?_, ?_, ?_,
      ?_, ?_, ?_, ?_, ?_, ?_, ?_, ?_⟩
    · intro id' hne
      rw [updateDownloadStatus_present now m id u d h]
      exact mlookup_mset_ne m id id' _ hne
    all_goals intro hu
    all_goals simp [applyUpdate, hu]
  · intro u hu now d
    rcases hu with ⟨msg, rfl⟩ | rfl | ⟨t, rfl⟩ | ⟨ca, f, rfl⟩ | ⟨ti, p, rfl⟩ | ⟨p, rfl⟩ <;>
      exact ⟨rfl, rfl, rfl, rfl, rfl, rfl⟩

/-- Witness for C10 at a concrete table: the absent identity is a
no-op, and a present identity keeps the unnamed fields while refreshing
`updatedAt`. -/
theorem C10_witness :
    (mlookup [] "d1" = none ∧
      updateDownloadStatus 7 [] "d1" updDownloading = []) ∧
    (IsCallSiteUpdate updDownloading ∧
      (applyUpdate 7 (initialStatus 0 "d1"
        { sourceId := "s", mangaId := "m", chapterIds := ["c"] } "dl")
        updDownloading).createdAt =
      (initialStatus 0 "d1"
        { sourceId := "s", mangaId := "m", chapterIds := ["c"] } "dl").createdAt) :=
  ⟨⟨rfl, C10_updateDownloadStatus_frame.1 7 [] "d1" updDownloading rfl⟩,
   ⟨Or.inr (Or.inl rfl),
    (C10_updateDownloadStatus_frame.2.2 updDownloading (Or.inr (Or.inl rfl)) 7
      (initialStatus 0 "d1"
        { sourceId := "s", mangaId := "m", chapterIds := ["c"] } "dl")).2.2.2.2.2⟩⟩

/-! ### Page-loop and chapter-loop lemmas -/

theorem exportEvents_append : ∀ (a b : List Ev),
    exportEvents (a ++ b) = exportEvents a ++ exportEvents b
  | [], b => rfl
  | Ev.exported i p :: rest, b => by
    rw [List.cons_append, exportEvents, exportEvents, List.cons_append,
      exportEvents_append rest b]
  | Ev.fetch c pi n t prog :: rest, b => by
    rw [List.cons_append, exportEvents, exportEvents, exportEvents_append rest b]

theorem exportEvents_eq_nil (evs : List Ev)
    (h : ∀ e ∈ evs, ∃ c p n t prog, e = Ev.fetch c p n t prog) :
    exportEvents evs = [] := by
  induction evs with
  | nil => rfl
  | cons e rest ih =>
    obtain ⟨c, p, n, t, prog, rfl⟩ := h e (List.mem_cons_self e rest)
    rw [exportEvents]
    exact ih fun x hx => h x (List.mem_cons_of_mem _ hx)

theorem pageLoop_events_fetch (now : Nat) (downloadId : String) (c n t : Nat)
    (pages : List (Option String)) :
    ∀ (pageIdx : Nat) (st : DownloadMap),
      ∀ e ∈ (pageLoop now downloadId c n t pages pageIdx st).2.1,
        ∃ p' prog, e = Ev.fetch c p' n t prog := by
  induction pages with
  | nil => intro pageIdx st e he; simp [pageLoop] at he
  | cons page rest ih =>
    intro pageIdx st e he
    cases page with
    | some msg =>
      simp only [pageLoop, List.mem_singleton] at he
      exact ⟨pageIdx, _, he⟩
    | none =>
      simp only [pageLoop, List.mem_cons] at he
      rcases he with rfl | he
      · exact ⟨pageIdx, _, rfl⟩
      · exact ih (pageIdx + 1) _ e he

theorem pageLoop_success (now : Nat) (downloadId : String) (c n t : Nat)
    (pages : List (Option String)) :
    ∀ (pageIdx : Nat) (st : DownloadMap), (∀ pg ∈ pages, pg = none) →
      (pageLoop now downloadId c n t pages pageIdx st).2.2 = none := by
  induction pages with
  | nil => intro pageIdx st _; rfl
  | cons page rest ih =>
    intro pageIdx st h
    have hhead := h page (List.mem_cons_self page rest)
    subst hhead
    simp only [pageLoop]
    exact ih (pageIdx + 1) _ fun pg hpg => h pg (List.mem_cons_of_mem _ hpg)

theorem pageLoop_fetch_spec (now : Nat) (downloadId : String) (c n t : Nat)
    (S : Int) (pages : List (Option String)) :
    ∀ (pageIdx : Nat) (st : DownloadMap) (d : DownloadStatus),
      mlookup st downloadId = some d →
      d.progress = (if pageIdx = 0 then S else pageProgress c pageIdx n t) →
      ∀ c' p' n' t' prog,
        Ev.fetch c' p' n' t' prog ∈ (pageLoop now downloadId c n t pages pageIdx st).2.1 →
        c' = c ∧ n' = n ∧ t' = t ∧ pageIdx ≤ p' ∧ p' < pageIdx + pages.length ∧
          prog = some (if p' = 0 then S else pageProgress c p' n t) := by
  induction pages with
  | nil => intro pageIdx st d _ _ c' p' n' t' prog he; simp [pageLoop] at he
  | cons page rest ih =>
    intro pageIdx st d hd hprog c' p' n' t' prog he
    cases page with
    | some msg =>
      simp only [pageLoop, List.mem_singleton] at he
      rw [Ev.fetch.injEq] at he
      obtain ⟨rfl, rfl, rfl, rfl, rfl⟩ := he
      refine ⟨rfl, rfl, rfl, Nat.le_refl _, by simp, ?_⟩
      simp [hd, hprog]
    | none =>
      simp only [pageLoop, List.mem_cons] at he
      rcases he with he | he
      · rw [Ev.fetch.injEq] at he
        obtain ⟨rfl, rfl, rfl, rfl, rfl⟩ := he
        refine ⟨rfl, rfl, rfl, Nat.le_refl _, by simp, ?_⟩
        simp [hd, hprog]
      · have hd1 := mlookup_update_self now st downloadId
          (updProgress (pageProgress c (pageIdx + 1) n t)) d hd
        have hprog1 : (applyUpdate now d
            (updProgress (pageProgress c (pageIdx + 1) n t))).progress =
            (if pageIdx + 1 = 0 then S else pageProgress c (pageIdx + 1) n t) := by
          simp [applyUpdate, updProgress]
        have := ih (pageIdx + 1) _ _ hd1 hprog1 c' p' n' t' prog he
        obtain ⟨h1, h2, h3, h4, h5, h6⟩ := this
        exact ⟨h1, h2, h3, Nat.le_of_succ_le h4, by simp [List.length_cons]; omega, h6⟩

theorem chapterLoop_exports_le_one (now : Nat) (downloadId : String) (fmt : String)
    (total : Nat) (mt dp : String) :
    ∀ (chs : List ChapterData) (cIdx : Nat) (st : DownloadMap),
      (exportEvents (chapterLoop now downloadId fmt total mt dp chs cIdx st).2.1).length ≤ 1 := by
  intro chs
  induction chs with
  | nil => intro cIdx st; simp [chapterLoop, exportEvents]
  | cons ch rest ih =>
    intro cIdx st
    by_cases hemp : ch.pages.isEmpty = true
    · simp only [chapterLoop, hemp, if_true]
      exact ih (cIdx + 1) _
    · rw [Bool.not_eq_true] at hemp
      simp only [chapterLoop, hemp, Bool.false_eq_true, if_false]
      have hfetch := pageLoop_events_fetch now downloadId cIdx ch.pages.length total
        ch.pages 0 (updateDownloadStatus now st downloadId
          (updChapterStart ch.Title (chapterStartProgress cIdx total)))
      have hnil := exportEvents_eq_nil _ fun e he =>
        (hfetch e he).elim fun p' hp' => hp'.elim fun prog hpr =>
          ⟨cIdx, p', ch.pages.length, total, prog, hpr⟩
      cases hpr : (pageLoop now downloadId cIdx ch.pages.length total ch.pages 0
          (updateDownloadStatus now st downloadId
            (updChapterStart ch.Title (chapterStartProgress cIdx total)))).2.2 with
      | some e => simp [hpr, hnil]
      | none =>
        by_cases hcbz : (fmt == "cbz") = true
        · simp only [hpr, hcbz, if_true]
          rw [exportEvents_append, hnil]
          simp [exportEvents]
        · rw [Bool.not_eq_true] at hcbz
          by_cases himg : (fmt == "images") = true
          · simp only [hpr, hcbz, Bool.false_eq_true, if_false, himg, if_true]
            rw [exportEvents_append, hnil]
            simp [exportEvents]
          · rw [Bool.not_eq_true] at himg
            simp only [hpr, hcbz, himg, Bool.false_eq_true, if_false]
            simp [hnil]

theorem chapterLoop_first_nonempty (now : Nat) (downloadId : String) (fmt : String)
    (total : Nat) (mt dp : String) (ch : ChapterData) (rest : List ChapterData)
    (hne : ch.pages ≠ []) (hok : ∀ pg ∈ ch.pages, pg = none)
    (hfmt : fmt = "cbz" ∨ fmt = "images") :
    ∀ (skipped : List ChapterData), (∀ s ∈ skipped, s.pages = []) →
      ∀ (cIdx : Nat) (st : DownloadMap),
      ∃ outputPath,
        (chapterLoop now downloadId fmt total mt dp (skipped ++ ch :: rest) cIdx st).2.2 =
          Except.ok outputPath ∧
        exportEvents
            (chapterLoop now downloadId fmt total mt dp (skipped ++ ch :: rest) cIdx st).2.1 =
          [Ev.exported (cIdx + skipped.length) outputPath] ∧
        ∀ e ∈ (chapterLoop now downloadId fmt total mt dp (skipped ++ ch :: rest) cIdx st).2.1,
          (∃ p' prog, e = Ev.fetch (cIdx + skipped.length) p' ch.pages.length total prog) ∨
          e = Ev.exported (cIdx + skipped.length) outputPath := by
  intro skipped
  induction skipped with
  | nil =>
    intro _ cIdx st
    rw [List.nil_append]
    have hemp : ch.pages.isEmpty = false := by
      cases hpg : ch.pages with
      | nil => exact absurd hpg hne
      | cons a l => rfl
    have hsucc := pageLoop_success now downloadId cIdx ch.pages.length total ch.pages 0
      (updateDownloadStatus now st downloadId
        (updChapterStart ch.Title (chapterStartProgress cIdx total))) hok
    have hfetch := pageLoop_events_fetch now downloadId cIdx ch.pages.length total
      ch.pages 0 (updateDownloadStatus now st downloadId
        (updChapterStart ch.Title (chapterStartProgress cIdx total)))
    have hnil := exportEvents_eq_nil _ fun e he =>
      (hfetch e he).elim fun p' hp' => hp'.elim fun prog hpr =>
        ⟨cIdx, p', ch.pages.length, total, prog, hpr⟩
    rcases hfmt with rfl | rfl
    · have hstep1 : (chapterLoop now downloadId "cbz" total mt dp (ch :: rest) cIdx st).2.1 =
          (pageLoop now downloadId cIdx ch.pages.length total ch.pages 0
          (updateDownloadStatus now st downloadId
            (updChapterStart ch.Title (chapterStartProgress cIdx total)))).2.1 ++ [Ev.exported cIdx (pathJoin (pathJoin dp (SanitizeFileName mt))
          ("chapter_" ++ extractChapterNumber ch.Title ++ ".cbz"))] := by
        simp only [chapterLoop, hemp, Bool.false_eq_true, if_false, hsucc]
        rfl
      have hstep2 : (chapterLoop now downloadId "cbz" total mt dp (ch :: rest) cIdx st).2.2 =
          Except.ok (pathJoin (pathJoin dp (SanitizeFileName mt))
          ("chapter_" ++ extractChapterNumber ch.Title ++ ".cbz")) := by
        simp only [chapterLoop, hemp, Bool.false_eq_true, if_false, hsucc]
        rfl
      refine ⟨(pathJoin (pathJoin dp (SanitizeFileName mt))
          ("chapter_" ++ extractChapterNumber ch.Title ++ ".cbz")), hstep2, ?_, ?_⟩
      · rw [hstep1, exportEvents_append, hnil, List.nil_append, List.length_nil,
          Nat.add_zero, exportEvents, exportEvents]
      · intro e he
        rw [hstep1, List.mem_append] at he
        rw [List.length_nil, Nat.add_zero]
        rcases he with he | he
        · obtain ⟨p', prog, rfl⟩ := hfetch e he
          exact Or.inl ⟨p', prog, rfl⟩
        · rw [List.mem_singleton] at he
          exact Or.inr he
    · have hstep1 : (chapterLoop now downloadId "images" total mt dp (ch :: rest) cIdx st).2.1 =
          (pageLoop now downloadId cIdx ch.pages.length total ch.pages 0
          (updateDownloadStatus now st downloadId
            (updChapterStart ch.Title (chapterStartProgress cIdx total)))).2.1 ++ [Ev.exported cIdx (pathJoin (pathJoin dp (SanitizeFileName mt))
          ("chapter_" ++ extractChapterNumber ch.Title))] := by
        simp only [chapterLoop, hemp, Bool.false_eq_true, if_false, hsucc]
        rfl
      have hstep2 : (chapterLoop now downloadId "images" total mt dp (ch :: rest) cIdx st).2.2 =
          Except.ok (pathJoin (pathJoin dp (SanitizeFileName mt))
          ("chapter_" ++ extractChapterNumber ch.Title)) := by
        simp only [chapterLoop, hemp, Bool.false_eq_true, if_false, hsucc]
        rfl
      refine ⟨(pathJoin (pathJoin dp (SanitizeFileName mt))
          ("chapter_" ++ extractChapterNumber ch.Title)), hstep2, ?_, ?_⟩
      · rw [hstep1, exportEvents_append, hnil, List.nil_append, List.length_nil,
          Nat.add_zero, exportEvents, exportEvents]
      · intro e he
        rw [hstep1, List.mem_append] at he
        rw [List.length_nil, Nat.add_zero]
        rcases he with he | he
        · obtain ⟨p', prog, rfl⟩ := hfetch e he
          exact Or.inl ⟨p', prog, rfl⟩
        · rw [List.mem_singleton] at he
          exact Or.inr he
  | cons s skipped ih =>
    intro hsk cIdx st
    have hs : s.pages = [] := hsk s (List.mem_cons_self s skipped)
    have hemp : s.pages.isEmpty = true := by rw [hs]; rfl
    rw [List.cons_append]
    simp only [chapterLoop, hemp, if_true]
    obtain ⟨outputPath, h1, h2, h3⟩ := ih
      (fun x hx => hsk x (List.mem_cons_of_mem s hx)) (cIdx + 1)
      (updateDownloadStatus now st downloadId
        (updChapterStart s.Title (chapterStartProgress cIdx total)))
    have hidx : cIdx + 1 + skipped.length = cIdx + (s :: skipped).length := by
      rw [List.length_cons]; omega
    rw [hidx] at h2 h3
    exact ⟨outputPath, h1, h2, h3⟩

theorem chapterLoop_fetch_spec (now : Nat) (downloadId : String) (fmt : String)
    (total : Nat) (mt dp : String) :
    ∀ (chs : List ChapterData) (cIdx : Nat) (st : DownloadMap) (d : DownloadStatus),
      mlookup st downloadId = some d →
      cIdx + chs.length = total →
      ∀ c' p' n' t' prog,
        Ev.fetch c' p' n' t' prog ∈
          (chapterLoop now downloadId fmt total mt dp chs cIdx st).2.1 →
        t' = total ∧ 0 < n' ∧ p' < n' ∧ c' < total ∧
          prog = some (if p' = 0 then chapterStartProgress c' total
            else pageProgress c' p' n' total) := by
  intro chs
  induction chs with
  | nil => intro cIdx st d hd htot c' p' n' t' prog he; simp [chapterLoop] at he
  | cons ch rest ih =>
    intro cIdx st d hd htot c' p' n' t' prog he
    have hd1 := mlookup_update_self now st downloadId
      (updChapterStart ch.Title (chapterStartProgress cIdx total)) d hd
    by_cases hemp : ch.pages.isEmpty = true
    · simp only [chapterLoop, hemp, if_true] at he
      refine ih (cIdx + 1) _ _ hd1 ?_ c' p' n' t' prog he
      rw [List.length_cons] at htot
      omega
    · rw [Bool.not_eq_true] at hemp
      have hn : 0 < ch.pages.length := by
        cases hpg : ch.pages with
        | nil => rw [hpg] at hemp; exact absurd hemp (by decide)
        | cons a l => simp [hpg]
      have hc : cIdx < total := by
        rw [List.length_cons] at htot
        omega
      have hd1prog : (applyUpdate now d
          (updChapterStart ch.Title (chapterStartProgress cIdx total))).progress =
          (if (0:Nat) = 0 then chapterStartProgress cIdx total
           else pageProgress cIdx 0 ch.pages.length total) := by
        simp [applyUpdate, updChapterStart]
      have hplspec := pageLoop_fetch_spec now downloadId cIdx ch.pages.length total
        (chapterStartProgress cIdx total) ch.pages 0
        (updateDownloadStatus now st downloadId
          (updChapterStart ch.Title (chapterStartProgress cIdx total)))
        (applyUpdate now d (updChapterStart ch.Title (chapterStartProgress cIdx total)))
        hd1 hd1prog
      have hfromPL : Ev.fetch c' p' n' t' prog ∈
          (pageLoop now downloadId cIdx ch.pages.length total ch.pages 0
            (updateDownloadStatus now st downloadId
              (updChapterStart ch.Title (chapterStartProgress cIdx total)))).2.1 → 
          t' = total ∧ 0 < n' ∧ p' < n' ∧ c' < total ∧
            prog = some (if p' = 0 then chapterStartProgress c' total
              else pageProgress c' p' n' total) := by
        intro hmem
        obtain ⟨hc', hn', ht', _, hlt, hprog⟩ := hplspec c' p' n' t' prog hmem
        subst hc'
        subst hn'
        subst ht'
        rw [Nat.zero_add] at hlt
        exact ⟨rfl, hn, hlt, hc, hprog⟩
      simp only [chapterLoop, hemp, Bool.false_eq_true, if_false] at he
      cases hpr : (pageLoop now downloadId cIdx ch.pages.length total ch.pages 0
          (updateDownloadStatus now st downloadId
            (updChapterStart ch.Title (chapterStartProgress cIdx total)))).2.2 with
      | some e =>
        simp only [hpr] at he
        exact hfromPL he
      | none =>
        simp only [hpr] at he
        by_cases hcbz : (fmt == "cbz") = true
        · simp only [hcbz, if_true, List.mem_append, List.mem_singleton] at he
          rcases he with he | he
          · exact hfromPL he
          · cases he
        · rw [Bool.not_eq_true] at hcbz
          by_cases himg : (fmt == "images") = true
          · simp only [hcbz, Bool.false_eq_true, if_false, himg, if_true,
              List.mem_append, List.mem_singleton] at he
            rcases he with he | he
            · exact hfromPL he
            · cases he
          · rw [Bool.not_eq_true] at himg
            simp only [hcbz, himg, Bool.false_eq_true, if_false] at he
            exact hfromPL he

/-! ### Export (C9) and progress (C3) theorems -/

/-- C9 counterexample: when the first resolved chapter has no pages,
`downloadAndExport` skips it and exports the *second* resolved chapter,
returning that chapter's path — so "processes and exports only the
first resolved chapter and returns its export path" fails as stated. -/
theorem C9_counterexample_first_chapter_not_exported :
    (downloadAndExport 0 "d1"
        { sourceId := "s", mangaId := "m", chapterIds := ["c1", "c2"] }
        [⟨"c1", "Alpha", []⟩, ⟨"c2", "Beta", [none]⟩] "Manga" "dl" []).2.2 =
      Except.ok "dl/Manga/chapter_Beta.cbz" ∧
    (downloadAndExport 0 "d1"
        { sourceId := "s", mangaId := "m", chapterIds := ["c1", "c2"] }
        [⟨"c1", "Alpha", []⟩, ⟨"c2", "Beta", [none]⟩] "Manga" "dl" []).2.1 =
      [Ev.fetch 1 0 1 2 none, Ev.exported 1 "dl/Manga/chapter_Beta.cbz"] := by
  exact ⟨rfl, rfl⟩

/-- C9 (amended): `downloadAndExport` never exports more than one
chapter per request; the chapter it exports is the first resolved
chapter with a non-empty page list (zero-page chapters before it are
skipped and not exported), and — when that chapter's page fetches all
succeed and the requested format is `cbz` or `images` — its export
path is the returned path and no later chapter produces any event. -/
theorem C9_downloadAndExport_single_export :
    (∀ (now : Nat) (downloadId : String) (req : DownloadRequest)
        (chapters : List ChapterData) (mt dp : String) (st : DownloadMap),
        (exportEvents (downloadAndExport now downloadId req chapters mt dp st).2.1).length ≤ 1) ∧
    (∀ (now : Nat) (downloadId : String) (req : DownloadRequest)
        (skipped : List ChapterData) (ch : ChapterData) (rest : List ChapterData)
        (mt dp : String) (st : DownloadMap),
        (∀ s ∈ skipped, s.pages = ([] : List (Option String))) →
        ch.pages ≠ [] →
        (∀ pg ∈ ch.pages, pg = none) →
        (formatOrDefault req.format = "cbz" ∨ formatOrDefault req.format = "images") →
        ∃ outputPath,
          (downloadAndExport now downloadId req (skipped ++ ch :: rest) mt dp st).2.2 =
            Except.ok outputPath ∧
          exportEvents
              (downloadAndExport now downloadId req (skipped ++ ch :: rest) mt dp st).2.1 =
            [Ev.exported skipped.length outputPath] ∧
          ∀ e ∈ (downloadAndExport now downloadId req (skipped ++ ch :: rest) mt dp st).2.1,
            (∃ p' prog, e = Ev.fetch skipped.length p' ch.pages.length
              (skipped ++ ch :: rest).length prog) ∨
            e = Ev.exported skipped.length outputPath) := by
  constructor
  · intro now downloadId req chapters mt dp st
    simp only [downloadAndExport]
    exact chapterLoop_exports_le_one now downloadId (formatOrDefault req.format)
      chapters.length mt dp chapters 0 st
  · intro now downloadId req skipped ch rest mt dp st hsk hne hok hfmt
    obtain ⟨outputPath, h1, h2, h3⟩ := chapterLoop_first_nonempty now downloadId
      (formatOrDefault req.format) (skipped ++ ch :: rest).length mt dp ch rest
      hne hok hfmt skipped hsk 0 st
    rw [Nat.zero_add] at h2 h3
    exact ⟨outputPath, h1, h2, h3⟩

/-- Witness for C9 at a concrete request: a zero-page first chapter is
skipped, the second chapter is the one exported. -/
theorem C9_witness :
    ((∀ s ∈ [(⟨"c1", "Alpha", []⟩ : ChapterData)], s.pages = ([] : List (Option String))) ∧
      (⟨"c2", "Beta", [none]⟩ : ChapterData).pages ≠ [] ∧
      (∀ pg ∈ (⟨"c2", "Beta", [none]⟩ : ChapterData).pages, pg = none) ∧
      (formatOrDefault (none : Option String) = "cbz" ∨
        formatOrDefault (none : Option String) = "images")) ∧
    ∃ outputPath,
      (downloadAndExport 0 "d1"
          { sourceId := "s", mangaId := "m", chapterIds := ["c1", "c2"] }
          ([⟨"c1", "Alpha", []⟩] ++ (⟨"c2", "Beta", [none]⟩ : ChapterData) :: [])
          "Manga" "dl" []).2.2 = Except.ok outputPath ∧
      exportEvents (downloadAndExport 0 "d1"
          { sourceId := "s", mangaId := "m", chapterIds := ["c1", "c2"] }
          ([⟨"c1", "Alpha", []⟩] ++ (⟨"c2", "Beta", [none]⟩ : ChapterData) :: [])
          "Manga" "dl" []).2.1 =
        [Ev.exported ([(⟨"c1", "Alpha", []⟩ : ChapterData)] : List ChapterData).length outputPath] ∧
      ∀ e ∈ (downloadAndExport 0 "d1"
          { sourceId := "s", mangaId := "m", chapterIds := ["c1", "c2"] }
          ([⟨"c1", "Alpha", []⟩] ++ (⟨"c2", "Beta", [none]⟩ : ChapterData) :: [])
          "Manga" "dl" []).2.1,
        (∃ p' prog, e = Ev.fetch ([(⟨"c1", "Alpha", []⟩ : ChapterData)] : List ChapterData).length p'
          (⟨"c2", "Beta", [none]⟩ : ChapterData).pages.length
          (([⟨"c1", "Alpha", []⟩] : List ChapterData) ++
            (⟨"c2", "Beta", [none]⟩ : ChapterData) :: []).length prog) ∨
        e = Ev.exported ([(⟨"c1", "Alpha", []⟩ : ChapterData)] : List ChapterData).length outputPath :=
  ⟨⟨by decide, by decide, by decide, Or.inl rfl⟩,
   C9_downloadAndExport_single_export.2 0 "d1"
     { sourceId := "s", mangaId := "m", chapterIds := ["c1", "c2"] }
     ([⟨"c1", "Alpha", []⟩] : List ChapterData)
     (⟨"c2", "Beta", [none]⟩ : ChapterData) ([] : List ChapterData)
     "Manga" "dl" ([] : DownloadMap)
     (by decide) (by decide) (by decide) (Or.inl rfl)⟩

set_option maxRecDepth 10000 in
/-- C3 counterexample: fetching page index 7 of a 10-page chapter in a
single-chapter download, the recorded progress is the binary64 evaluation
of `Math.floor(((0 + 7 / 10) / 1) * 90)`, which is 62 — `0.7 * 90` is
`62.99999999999999` in binary64 — while the exact rational floor the
claim asserts is 63. -/
theorem C3_counterexample_binary64_floor :
    pageProgress 0 7 10 1 = 62 ∧
    Int.floor ((((0:ℚ) + 7 / 10) / 1) * 90) = 63 ∧ (62 : Int) ≠ 63 := by
  refine ⟨by decide, ?_, by decide⟩
  have h : ((((0:ℚ) + 7 / 10) / 1) * 90) = ((63:ℤ):ℚ) := by norm_num
  rw [h, Int.floor_intCast]

/-- C3: while page `pageIndex` (0-based) of the chapter at position
`chapterIndex` is being fetched, the recorded progress of the download
is the binary64 evaluation (not the exact rational floor, from which it
can differ by one, e.g. 62 versus 63 at page 7 of 10 in a one-chapter
download) of `Math.floor((chapterIndex / totalChapters) * 90)` for page
0 — written by the chapter-start update — and of
`Math.floor(((chapterIndex + pageIndex / pageCount) / totalChapters) * 90)`
for later pages — written by the previous page's update; that value
never exceeds 90, the final 10% of the range being reserved for the
export phase. -/
theorem C3_progress_during_fetch :
    ∀ (now : Nat) (downloadId : String) (req : DownloadRequest)
      (chapters : List ChapterData) (mt dp : String) (st : DownloadMap)
      (d0 : DownloadStatus),
      mlookup st downloadId = some d0 →
      ∀ c p n t prog,
        Ev.fetch c p n t prog ∈
          (downloadAndExport now downloadId req chapters mt dp st).2.1 →
        t = chapters.length ∧
        prog = some (if p = 0 then chapterStartProgress c t
          else pageProgress c p n t) ∧
        (if p = 0 then chapterStartProgress c t else pageProgress c p n t) ≤ 90 := by
  intro now downloadId req chapters mt dp st d0 hd c p n t prog he
  simp only [downloadAndExport] at he
  obtain ⟨ht, hn, hpn, hc, hprog⟩ := chapterLoop_fetch_spec now downloadId
    (formatOrDefault req.format) chapters.length mt dp chapters 0 st d0 hd
    (Nat.zero_add _) c p n t prog he
  subst ht
  refine ⟨rfl, hprog, ?_⟩
  by_cases hp : p = 0
  · rw [if_pos hp]
    exact chapterStartProgress_le_90 c chapters.length hc
  · rw [if_neg hp]
    exact pageProgress_le_90 c p n chapters.length hn (Nat.le_of_lt hpn) hc

set_option maxRecDepth 10000 in
/-- Witness for C3 at a concrete download: while fetching page index 1
of 2 of the only chapter, the recorded progress is the binary64 value
45 of `Math.floor(((0 + 1 / 2) / 1) * 90)`. -/
theorem C3_witness :
    mlookup [("d1", initialStatus 0 "d1"
        { sourceId := "s", mangaId := "m", chapterIds := ["c1"] } "dl")] "d1" =
      some (initialStatus 0 "d1"
        { sourceId := "s", mangaId := "m", chapterIds := ["c1"] } "dl") ∧
    Ev.fetch 0 1 2 1 (some 45) ∈
      (downloadAndExport 0 "d1"
        { sourceId := "s", mangaId := "m", chapterIds := ["c1"] }
        [⟨"c1", "One", [none, none]⟩] "M" "dl"
        [("d1", initialStatus 0 "d1"
          { sourceId := "s", mangaId := "m", chapterIds := ["c1"] } "dl")]).2.1 ∧
    (1 = ([⟨"c1", "One", [none, none]⟩] : List ChapterData).length ∧
      some (45 : Int) = some (if (1:Nat) = 0 then chapterStartProgress 0 1
        else pageProgress 0 1 2 1) ∧
      (if (1:Nat) = 0 then chapterStartProgress 0 1
        else pageProgress 0 1 2 1) ≤ 90) :=
  ⟨by decide, by decide,
   C3_progress_during_fetch 0 "d1"
     { sourceId := "s", mangaId := "m", chapterIds := ["c1"] }
     [⟨"c1", "One", [none, none]⟩] "M" "dl"
     [("d1", initialStatus 0 "d1"
       { sourceId := "s", mangaId := "m", chapterIds := ["c1"] } "dl")]
     (initialStatus 0 "d1"
       { sourceId := "s", mangaId := "m", chapterIds := ["c1"] } "dl")
     (by decide) 0 1 2 1 (some 45) (by decide)⟩

/-! ### Download creation theorems -/

/-- C2 counterexample: at a concrete request, the record
`createDownload` hands back reads *downloading* — not *queued* — at
the moment the call returns, because the un-awaited `processDownload`
prefix already mutated the shared record. -/
theorem C2_counterexample_returns_downloading :
    ((createDownloadReturn 0 "d1"
        { sourceId := "s", mangaId := "m", chapterIds := ["c1"] }
        "downloads" []).2.map (·.status)) = some DLState.downloading ∧
    some DLState.downloading ≠ some DLState.queued := by
  exact ⟨rfl, by decide⟩

/-- C2 (amended): `createDownload` records a status with state *queued*
and progress 0 in the table, and processing is started without awaiting
it; but the synchronous prefix of the detached `processDownload` call
(the *downloading* update of line 87) runs before `createDownload`
returns and mutates the shared record, so the record returned to the
caller has state *downloading* at the moment the call returns, and is
the very record the table holds. -/
theorem C2_createDownload_spec :
    ∀ (now : Nat) (id : String) (req : DownloadRequest) (downloadDir : String)
      (st : DownloadMap),
      (initialStatus now id req (resolvedDownloadPath req downloadDir)).status =
        DLState.queued ∧
      (initialStatus now id req (resolvedDownloadPath req downloadDir)).progress = 0 ∧
      mlookup (mset st id
          (initialStatus now id req (resolvedDownloadPath req downloadDir))) id =
        some (initialStatus now id req (resolvedDownloadPath req downloadDir)) ∧
      ((createDownloadReturn now id req downloadDir st).2.map (·.status)) =
        some DLState.downloading ∧
      (createDownloadReturn now id req downloadDir st).2 =
        mlookup (createDownloadReturn now id req downloadDir st).1 id := by
  intro now id req downloadDir st
  refine ⟨rfl, rfl, mlookup_mset_self st id _, ?_, rfl⟩
  simp only [createDownloadReturn]
  rw [mlookup_update_self now _ id updDownloading _ (mlookup_mset_self st id _)]
  rfl

/-- C5: when none of the requested chapter identifiers matches the
resolved catalog, processing fails with the message that enumerates
every available identifier (and the requested ones), and the detached
promise's catch records state *failed* with that message on the
download. -/
theorem C5_no_matching_chapters :
    ∀ (now : Nat) (engine : EngineData) (id : String) (req : DownloadRequest)
      (downloadDir : String) (st : DownloadMap) (plugin : PluginData)
      (manga : MangaData),
      engine.WebsitePlugins.find? (fun p => p.Identifier == req.sourceId) =
        some plugin →
      plugin.mangas.find? (fun m => m.Identifier == req.mangaId) = some manga →
      manga.chapters.filter (fun c => req.chapterIds.contains c.Identifier) = [] →
      (runDownload now engine id req downloadDir st).2.2 =
        Except.error (PErr.noValidChapters
          (mkNoValidChaptersMsg (manga.chapters.map (·.Identifier))
            req.chapterIds)) ∧
      ∃ d, mlookup (runDownload now engine id req downloadDir st).1 id = some d ∧
        d.status = DLState.failed ∧
        d.error = some (mkNoValidChaptersMsg (manga.chapters.map (·.Identifier))
          req.chapterIds) := by
  intro now engine id req downloadDir st plugin manga h1 h2 h3
  have hinit := mlookup_mset_self st id
    (initialStatus now id req (resolvedDownloadPath req downloadDir))
  have hd1 := mlookup_update_self now
    (mset st id (initialStatus now id req (resolvedDownloadPath req downloadDir)))
    id updDownloading _ hinit
  have hproc : processDownload now engine id req
      (resolvedDownloadPath req downloadDir)
      (mset st id (initialStatus now id req (resolvedDownloadPath req downloadDir))) =
      (updateDownloadStatus now
        (mset st id (initialStatus now id req (resolvedDownloadPath req downloadDir)))
        id updDownloading, [],
       Except.error (PErr.noValidChapters
         (mkNoValidChaptersMsg (manga.chapters.map (·.Identifier))
           req.chapterIds))) := by
    simp only [processDownload, h1, h2]
    rw [h3, if_pos List.isEmpty_nil]
  have hrun : runDownload now engine id req downloadDir st =
      (updateDownloadStatus now
        (updateDownloadStatus now
          (mset st id (initialStatus now id req (resolvedDownloadPath req downloadDir)))
          id updDownloading)
        id (updFailed ((PErr.noValidChapters
          (mkNoValidChaptersMsg (manga.chapters.map (·.Identifier))
            req.chapterIds)).message)), [],
       Except.error (PErr.noValidChapters
         (mkNoValidChaptersMsg (manga.chapters.map (·.Identifier))
           req.chapterIds))) := by
    simp only [runDownload]
    rw [hproc]
  rw [hrun]
  refine ⟨rfl, ?_⟩
  have hfinal := mlookup_update_self now
    (updateDownloadStatus now
      (mset st id (initialStatus now id req (resolvedDownloadPath req downloadDir)))
      id updDownloading) id
    (updFailed ((PErr.noValidChapters
      (mkNoValidChaptersMsg (manga.chapters.map (·.Identifier))
        req.chapterIds)).message))
    _ hd1
  exact ⟨_, hfinal, rfl, rfl⟩

/-- Witness for C5 at the spec's own example: catalog `[a, b]`,
request `[x, y]` — the failure message enumerates `a, b`. -/
theorem C5_witness :
    ((⟨[⟨"src1", [⟨"mg1", "T",
          [⟨"a", "A", []⟩, ⟨"b", "B", []⟩]⟩]⟩]⟩ : EngineData).WebsitePlugins.find?
        (fun p => p.Identifier == "src1") =
      some ⟨"src1", [⟨"mg1", "T", [⟨"a", "A", []⟩, ⟨"b", "B", []⟩]⟩]⟩) ∧
    ((⟨"src1", [⟨"mg1", "T", [⟨"a", "A", []⟩, ⟨"b", "B", []⟩]⟩]⟩ :
        PluginData).mangas.find? (fun m => m.Identifier == "mg1") =
      some ⟨"mg1", "T", [⟨"a", "A", []⟩, ⟨"b", "B", []⟩]⟩) ∧
    ((⟨"mg1", "T", [⟨"a", "A", []⟩, ⟨"b", "B", []⟩]⟩ :
        MangaData).chapters.filter
        (fun c => (["x", "y"] : List String).contains c.Identifier) = []) ∧
    ((runDownload 0 ⟨[⟨"src1", [⟨"mg1", "T",
          [⟨"a", "A", []⟩, ⟨"b", "B", []⟩]⟩]⟩]⟩ "d1"
        { sourceId := "src1", mangaId := "mg1", chapterIds := ["x", "y"] }
        "dl" []).2.2 =
      Except.error (PErr.noValidChapters
        (mkNoValidChaptersMsg ["a", "b"] ["x", "y"]))) ∧
    mkNoValidChaptersMsg ["a", "b"] ["x", "y"] =
      "No valid chapters found to download. Available chapter IDs: a, b. Requested: x, y" :=
  ⟨by decide, by decide, by decide,
   (C5_no_matching_chapters 0
      ⟨[⟨"src1", [⟨"mg1", "T", [⟨"a", "A", []⟩, ⟨"b", "B", []⟩]⟩]⟩]⟩ "d1"
      { sourceId := "src1", mangaId := "mg1", chapterIds := ["x", "y"] }
      "dl" []
      ⟨"src1", [⟨"mg1", "T", [⟨"a", "A", []⟩, ⟨"b", "B", []⟩]⟩]⟩
      ⟨"mg1", "T", [⟨"a", "A", []⟩, ⟨"b", "B", []⟩]⟩
      (by decide) (by decide) (by decide)).1,
   by decide⟩

/-! ### File retrieval theorems -/

/-- C6: `getDownloadFilePath` raises a not-found error for an unknown
identity; for a known download in any state other than *completed* it
raises the `Download is not completed yet` bad-request signal and never
returns a path; and any path it does return comes from a download whose
state is *completed*. -/
theorem C6_getDownloadFilePath_only_completed :
    (∀ (fsv : FsView) (downloadDir : String) (st : DownloadMap) (id : String),
        mlookup st id = none →
        getDownloadFilePath fsv downloadDir st id =
          Except.error (ApiError.downloadNotFound id)) ∧
    (∀ (fsv : FsView) (downloadDir : String) (st : DownloadMap) (id : String)
        (d : DownloadStatus), mlookup st id = some d →
        d.status ≠ DLState.completed →
        getDownloadFilePath fsv downloadDir st id =
          Except.error (ApiError.badRequest "Download is not completed yet")) ∧
    (∀ (fsv : FsView) (downloadDir : String) (st : DownloadMap) (id : String)
        (p : String), getDownloadFilePath fsv downloadDir st id = Except.ok p →
        ∃ d, mlookup st id = some d ∧ d.status = DLState.completed) := by
  refine ⟨?_, ?_, ?_⟩
  · intro fsv downloadDir st id h
    rw [getDownloadFilePath, getDownload, h]
  · intro fsv downloadDir st id d h hs
    rw [getDownloadFilePath, getDownload, h]
    simp [hs]
  · intro fsv downloadDir st id p h
    rw [getDownloadFilePath, getDownload] at h
    cases hl : mlookup st id with
    | none => rw [hl] at h; cases h
    | some d =>
      rw [hl] at h
      refine ⟨d, rfl, ?_⟩
      by_cases hs : d.status = DLState.completed
      · exact hs
      · simp only [ne_eq, hs, not_false_iff, if_true] at h
        cases h

/-- Witness for C6 at a concrete table: a freshly queued download
yields the bad-request signal, an unknown identity the not-found
error. -/
theorem C6_witness :
    (mlookup [("d1", initialStatus 0 "d1"
        { sourceId := "s", mangaId := "m", chapterIds := ["c"] } "dl")] "d1" =
      some (initialStatus 0 "d1"
        { sourceId := "s", mangaId := "m", chapterIds := ["c"] } "dl") ∧
      getDownloadFilePath ⟨fun _ => false, fun _ => []⟩ "dl"
        [("d1", initialStatus 0 "d1"
          { sourceId := "s", mangaId := "m", chapterIds := ["c"] } "dl")] "d1" =
        Except.error (ApiError.badRequest "Download is not completed yet")) ∧
    getDownloadFilePath ⟨fun _ => false, fun _ => []⟩ "dl" [] "nope" =
      Except.error (ApiError.downloadNotFound "nope") :=
  ⟨⟨rfl,
    C6_getDownloadFilePath_only_completed.2.1 ⟨fun _ => false, fun _ => []⟩ "dl"
      [("d1", initialStatus 0 "d1"
        { sourceId := "s", mangaId := "m", chapterIds := ["c"] } "dl")] "d1"
      (initialStatus 0 "d1"
        { sourceId := "s", mangaId := "m", chapterIds := ["c"] } "dl")
      rfl (by decide)⟩,
   C6_getDownloadFilePath_only_completed.1 ⟨fun _ => false, fun _ => []⟩ "dl"
     [] "nope" rfl⟩

/-! ### Cloudflare wait-loop theorems -/

theorem waitForCloudflareLoop_fuel_enough (maxWaitTime : Nat)
    (evals : Nat → EvalRes) (rechecks : Nat → RecheckRes) :
    ∀ (fuel elapsed k r : Nat), maxWaitTime ≤ elapsed + 500 * fuel →
      waitForCloudflareLoop maxWaitTime evals rechecks (fuel + 1) elapsed k r ≠
        CfOutcome.outOfFuel := by
  intro fuel
  induction fuel with
  | zero =>
    intro elapsed k r h
    rw [waitForCloudflareLoop]
    have : ¬ elapsed < maxWaitTime := by omega
    simp [this]
  | succ f ih =>
    intro elapsed k r h
    rw [waitForCloudflareLoop]
    by_cases he : elapsed < maxWaitTime
    · simp only [he, if_true]
      cases hek : evals k with
      | ok b =>
        cases b
        · simp
        · exact ih (elapsed + 500) (k + 1) r (by omega)
      | ctxDestroyed =>
        cases her : rechecks r with
        | ok b =>
          cases b
          · simp
          · exact ih (elapsed + 1000 + 500) (k + 1) (r + 1) (by omega)
        | err => exact ih (elapsed + 1000 + 500) (k + 1) (r + 1) (by omega)
      | fail msg => simp
    · simp [he]

theorem waitForCloudflareLoop_always_challenged (maxWaitTime : Nat)
    (evals : Nat → EvalRes) (rechecks : Nat → RecheckRes)
    (hev : ∀ k, evals k = EvalRes.ok true) :
    ∀ (fuel elapsed k r : Nat), maxWaitTime ≤ elapsed + 500 * fuel →
      waitForCloudflareLoop maxWaitTime evals rechecks (fuel + 1) elapsed k r =
        CfOutcome.timedOutWarning := by
  intro fuel
  induction fuel with
  | zero =>
    intro elapsed k r h
    rw [waitForCloudflareLoop]
    have : ¬ elapsed < maxWaitTime := by omega
    simp [this]
  | succ f ih =>
    intro elapsed k r h
    rw [waitForCloudflareLoop]
    by_cases he : elapsed < maxWaitTime
    · simp only [he, if_true, hev k]
      exact ih (elapsed + 500) (k + 1) r (by omega)
    · simp [he]

/-- C8: `waitForCloudflare` (1) re-polls the challenge signal 500 ms
after a round that still sees the challenge; (2) when the deadline
elapses without the challenge clearing it returns normally with the
`timedOutWarning` outcome (the warning-and-proceed return of line 329,
not a raised error); (3) on an execution-context-destroyed error it
pauses 1000 ms, re-checks once and declares the challenge cleared when
the challenge text is gone; (4) otherwise it sleeps the regular 500 ms
and continues polling. -/
theorem C8_waitForCloudflare_spec :
    (∀ (maxWaitTime : Nat) (evals : Nat → EvalRes) (rechecks : Nat → RecheckRes),
        (∀ k, evals k = EvalRes.ok true) →
        waitForCloudflare evals rechecks maxWaitTime = CfOutcome.timedOutWarning) ∧
    (∀ (maxWaitTime : Nat) (evals : Nat → EvalRes) (rechecks : Nat → RecheckRes)
        (fuel elapsed k r : Nat), elapsed < maxWaitTime →
        evals k = EvalRes.ok true →
        waitForCloudflareLoop maxWaitTime evals rechecks (fuel + 1) elapsed k r =
          waitForCloudflareLoop maxWaitTime evals rechecks fuel (elapsed + 500) (k + 1) r) ∧
    (∀ (maxWaitTime : Nat) (evals : Nat → EvalRes) (rechecks : Nat → RecheckRes)
        (fuel elapsed k r : Nat), elapsed < maxWaitTime →
        evals k = EvalRes.ctxDestroyed → rechecks r = RecheckRes.ok false →
        waitForCloudflareLoop maxWaitTime evals rechecks (fuel + 1) elapsed k r =
          CfOutcome.clearedAfterNav) ∧
    (∀ (maxWaitTime : Nat) (evals : Nat → EvalRes) (rechecks : Nat → RecheckRes)
        (fuel elapsed k r : Nat), elapsed < maxWaitTime →
        evals k = EvalRes.ctxDestroyed → rechecks r = RecheckRes.ok true →
        waitForCloudflareLoop maxWaitTime evals rechecks (fuel + 1) elapsed k r =
          waitForCloudflareLoop maxWaitTime evals rechecks fuel
            (elapsed + 1000 + 500) (k + 1) (r + 1)) := by
  refine ⟨?_, ?_, ?_, ?_⟩
  · intro maxWaitTime evals rechecks hev
    exact waitForCloudflareLoop_always_challenged maxWaitTime evals rechecks hev
      maxWaitTime 0 0 0 (by omega)
  · intro maxWaitTime evals rechecks fuel elapsed k r he hek
    rw [waitForCloudflareLoop]
    simp [he, hek]
  · intro maxWaitTime evals rechecks fuel elapsed k r he hek her
    rw [waitForCloudflareLoop]
    simp [he, hek, her]
  · intro maxWaitTime evals rechecks fuel elapsed k r he hek her
    rw [waitForCloudflareLoop]
    simp [he, hek, her]

/-- Witness for C8: with a page that never clears its challenge and a
1-second deadline, the wait returns the warn-and-proceed outcome. -/
theorem C8_witness :
    waitForCloudflare constChallenge constStillChallenging 1000 =
      CfOutcome.timedOutWarning :=
  C8_waitForCloudflare_spec.1 1000 constChallenge constStillChallenging
    (fun _ => rfl)

/-- Witness for C7 at a concrete header map: a Cloudflare-style
`server-timing` value with an embedded CRLF run is folded, and a value
with a control character is dropped. -/
theorem C7_witness :
    (("server-timing", "a, b") ∈
        sanitizeHeaders [("server-timing", "a\r\nb"), ("x-bad", "v\x01w")]) ∧
    ((∃ v₀, ("server-timing", v₀) ∈
        [("server-timing", "a\r\nb"), ("x-bad", "v\x01w")] ∧
        ("a, b" : String).data = foldNewlines v₀.data) ∧
      hasCtl "a, b" = false ∧
      ∀ c ∈ ("a, b" : String).data, isCRLF c = false) :=
  ⟨by decide,
   C7_sanitizeHeaders_no_control_chars
     [("server-timing", "a\r\nb"), ("x-bad", "v\x01w")]
     ("server-timing", "a, b") (by decide)⟩

end Haruneko
